import Mathlib

/-!
# Verification of the `TextAnalyzer` analysis pipeline

A shallow embedding of `backend/analysis.py` (class `TextAnalyzer` and its
text-analysis cache) from the `extreme-content-detector` repository, together
with theorems settling the frozen claims about it.

Modelling conventions:
* Python dicts with a fixed set of keys become Lean structures; optional keys
  become `Option` fields (`none` = key absent).
* Python floats become `ℚ` (the numerators/denominators involved are exact
  decimals, so no rounding behaviour is lost for the properties proved here).
* Python strings become `String`; the string helpers below reproduce the
  CPython semantics (`in`, `str.replace`, `str.split`, `str.lower` restricted
  to ASCII case folding) used by the analyzer.
* External collaborators keep their role as oracles: NLTK sentence/word
  tokenization and the `re` regex engine are parameters (`NLPOracles`), since
  they are library code, not repository code.  The *tables* of regex pattern
  strings, lexicons and weights in the source are embedded verbatim.
* Word-boundary keyword counting (`re.findall(r'\b' + re.escape(kw) + r'\b',
  text)`) is implemented concretely (`wbCount`), because after `re.escape` the
  pattern is a literal delimited by word boundaries; `\w` is modelled as
  ASCII alphanumeric or underscore.
* The MD5 text-hash key of `ContentCache.text_cache` is modelled by keying the
  cache on the text itself (MD5 is collision-free on the inputs considered).
-/

/-- The three-level ordinal strength used throughout the analyzer. -/
inductive Strength
  | low
  | medium
  | high
deriving DecidableEq, Repr

/-- `strength_levels = {"low": 1, "medium": 2, "high": 3}` (appears at several
places in the source). -/
def strengthVal : Strength → Nat
  | .low => 1
  | .medium => 2
  | .high => 3

/-- The Python string naming a strength level. -/
def strengthName : Strength → String
  | .low => "low"
  | .medium => "medium"
  | .high => "high"

/-! ## Python string-primitive helpers -/

/-- Python `needle in hay` (contiguous substring test). -/
def pyContains (needle hay : String) : Bool :=
  go needle.toList hay.toList
where
  go (n : List Char) : List Char → Bool
    | [] => n.isEmpty
    | c :: cs => n.isPrefixOf (c :: cs) || go n cs

/-- Fuel-driven scanner behind `replaceAll`; the fuel is always initialised to
the length of the scanned list, which each step strictly decreases, so the
fuel-exhausted branch is unreachable.  (Fuel is used instead of well-founded
recursion so that the definition reduces inside the kernel.) -/
def replaceAllGo (old rep : List Char) : Nat → List Char → List Char
  | 0, l => l
  | _ + 1, [] => []
  | fuel + 1, c :: cs =>
    if old ≠ [] && old.isPrefixOf (c :: cs) then
      rep ++ replaceAllGo old rep fuel ((c :: cs).drop old.length)
    else
      c :: replaceAllGo old rep fuel cs

/-- Python `s.replace(old, rep)`: replaces every non-overlapping occurrence of
`old` in `s`, scanning left to right.  (For the degenerate `old = ""` Python
interleaves `rep` between all characters; the analyzer only ever calls this
with non-empty catalog keywords, and we model the empty-pattern case as the
identity.) -/
def replaceAll (s old rep : String) : String :=
  ⟨replaceAllGo old.toList rep.toList s.toList.length s.toList⟩

/-- ASCII case folding; Python `str.lower` restricted to the ASCII range.  The
texts and keywords in the properties proved here are ASCII-cased. -/
def pyLower (s : String) : String :=
  ⟨s.toList.map Char.toLower⟩

/-- Python `s.split()` (split on whitespace runs, dropping empty fields). -/
def pySplit (s : String) : List String :=
  ((s.toList.splitOnP fun c => c.isWhitespace).filter (· ≠ [])).map fun l => ⟨l⟩

/-- `re.sub(r'\s+', ' ', s).strip()`: collapse every whitespace run to a
single space and trim the ends — equivalently, rejoin the whitespace-split
fields with single spaces. -/
def collapseWs (s : String) : String :=
  String.intercalate " " (pySplit s)

/-- A word character in the sense of the `\b` boundaries used by the analyzer
(ASCII model of Python `\w`: alphanumeric or underscore). -/
def isWordChar (c : Char) : Bool :=
  c.isAlphanum || c = '_'

/-- Whether `\b` matches between a character to the left (`none` = start/end
of string) and one to the right: exactly one side is a word character. -/
def isBoundary (left right : Option Char) : Bool :=
  (left.elim false isWordChar) != (right.elim false isWordChar)

/-- Fuel-driven scanner behind `wbCount`; `prev` is the character immediately
before the current position (`none` at the start of the string). -/
def wbCountGo (kw : List Char) (hkw : kw ≠ []) :
    Nat → Option Char → List Char → Nat
  | 0, _, _ => 0
  | _ + 1, _, [] => 0
  | fuel + 1, prev, c :: cs =>
    let rest := c :: cs
    if kw.isPrefixOf rest
        && isBoundary prev (some (kw.headD c))
        && isBoundary (some (kw.getLastD c)) (rest.drop kw.length).head? then
      1 + wbCountGo kw hkw fuel (some (kw.getLastD c)) (rest.drop kw.length)
    else
      wbCountGo kw hkw fuel (some c) cs

/-- `len(re.findall(r'\b' + re.escape(kw) + r'\b', text))`: the number of
non-overlapping word-boundary-delimited occurrences of the literal `kw` in
`text`, scanning left to right.  (`re.escape` makes `kw` a literal, so the
regex is exactly a boundary-delimited literal search.) -/
def wbCount (kw text : String) : Nat :=
  match kw.toList with
  | [] => 0
  | c :: cs =>
    wbCountGo (c :: cs) (List.cons_ne_nil c cs) text.toList.length none text.toList

/-! ## Data model

`IndicatorResult` mirrors the loosely-typed result dictionaries of the source:
each optional stage key is an `Option` field.  The `evidence` display string of
an evidence factor is presentation-only (an f-string in the source) and is not
modelled; the `method` name and numeric `contribution` are. -/

/-- One keyword of an indicator definition / one found keyword. -/
structure KeywordInfo where
  text : String
  strength : Strength
deriving DecidableEq, Repr

/-- One entry of the indicator catalog (`indicators.json`). -/
structure IndicatorDef where
  id : String
  name : String
  description : String
  keywords : List KeywordInfo
deriving DecidableEq, Repr

/-- `frequency_data` attached by `_frequency_analysis`. -/
structure FrequencyData where
  keyword_counts : List (String × Nat)
  total_occurrences : Nat
  density : ℚ
deriving DecidableEq, Repr

/-- One proximity match of `_proximity_analysis`. -/
structure ProximityMatch where
  keyword1 : String
  keyword2 : String
  distance : Nat
deriving DecidableEq, Repr

/-- `sentiment_data` attached by `_sentiment_analysis`. -/
structure SentimentData where
  positive_score : Nat
  negative_score : Nat
  threat_score : Nat
  total_sentiment : Int
  normalized_sentiment : ℚ
deriving DecidableEq, Repr

/-- `propaganda_score` attached by `_propaganda_technique_analysis`. -/
structure PropagandaScore where
  total_techniques : Nat
  total_instances : Nat
deriving DecidableEq, Repr

/-- One per-category entry of `topic_counts` in `_topic_coherence_analysis`. -/
structure TopicData where
  count : Nat
  examples : List String
deriving DecidableEq, Repr

/-- One coherent segment of `_topic_coherence_analysis`.  (`seg_matches`
models the source's `"matches"` key; `matches` is reserved syntax in Lean.) -/
structure CoherentSegment where
  sentence_idx : Nat
  sentence : String
  categories : List String
  seg_matches : List (String × List String)
deriving DecidableEq, Repr

/-- `topic_coherence` attached by `_topic_coherence_analysis`. -/
structure TopicCoherence where
  topic_data : List (String × TopicData)
  coherent_segments : List CoherentSegment
deriving DecidableEq, Repr

/-- `rhetorical_devices` attached by `_rhetorical_device_analysis`. -/
structure RhetoricalDevices where
  devices_found : List (String × List String)
  total_devices : Nat
  total_instances : Nat
  escalating_rhetoric : Bool
deriving DecidableEq, Repr

/-- One entry of the combiner's `evidence_factors` list (the human-readable
`evidence` f-string of the source is presentation-only and not modelled). -/
structure EvidenceFactor where
  method : String
  contribution : ℚ
deriving DecidableEq, Repr

/-- `combined_analysis` attached by `_weighted_analysis_combination`. -/
structure CombinedAnalysis where
  score : ℚ
  strength : Strength
  evidence_factors : List EvidenceFactor
  methods_used : Nat
deriving DecidableEq, Repr

/-- The per-indicator result dictionary threaded through the pipeline.
`text` mirrors the `"text"` key the combiner reads via
`indicator.get("text", "")`; no stage of the pipeline ever writes it.
`context` is absent (rather than `[]`) on pattern-synthesised results in the
source; every read uses `.get("context", [])`, so `[]` models absence. -/
structure IndicatorResult where
  indicator_id : String
  indicator_name : String
  indicator_description : String
  found_keywords : List KeywordInfo
  overall_strength : Strength
  context : List String := []
  frequency_data : Option FrequencyData := none
  proximity_matches : Option (List ProximityMatch) := none
  contextual_amplifiers : Option (List String) := none
  pattern_matches : Option (List String) := none
  sentiment_data : Option SentimentData := none
  noun_phrase_matches : Option (List (String × List String)) := none
  propaganda_techniques : Option (List (String × List String)) := none
  propaganda_score : Option PropagandaScore := none
  topic_coherence : Option TopicCoherence := none
  rhetorical_devices : Option RhetoricalDevices := none
  combined_analysis : Option CombinedAnalysis := none
  text : Option String := none
deriving DecidableEq, Repr

/-- `settings["methods"]` / the orchestrator's `used_methods`: a key is
modelled as `true` exactly when it is present and truthy (the source only ever
stores `True` under a present key). -/
structure Methods where
  keywordMatching : Bool := false
  frequencyAnalysis : Bool := false
  proximityAnalysis : Bool := false
  contextAnalysis : Bool := false
  patternMatching : Bool := false
  sentimentAnalysis : Bool := false
  nounPhraseAnalysis : Bool := false
  propagandaTechniqueAnalysis : Bool := false
  topicCoherenceAnalysis : Bool := false
  rhetoricalDeviceAnalysis : Bool := false
deriving DecidableEq, Repr

/-- `settings["thresholds"]` with the source's `.get` defaults. -/
structure Thresholds where
  minKeywordStrength : Strength := .low
  minOccurrences : Nat := 1
  proximityDistance : Nat := 20
deriving DecidableEq, Repr

/-- A per-call `settings` dictionary with the source's `.get` defaults. -/
structure AnalysisSettings where
  methods : Methods := {}
  thresholds : Thresholds := {}
  categories : List String := []
deriving DecidableEq, Repr

/-- The default settings dictionary built by `analyze_text` when
`settings is None`. -/
def defaultSettings : AnalysisSettings :=
  { methods := { keywordMatching := true }
    thresholds := {}
    categories := [] }

/-- The dictionary returned by `analyze_text`: either the structured error
result `{"error": ..., "results": []}` (which carries neither
`total_indicators_found` nor `analysis_methods`) or a full analysis report. -/
structure Report where
  error : Option String := none
  total_indicators_found : Option Nat := none
  results : List IndicatorResult := []
  analysis_methods : Option Methods := none
deriving DecidableEq, Repr

/-- The external NLP collaborators of the analyzer: NLTK tokenization and the
`re` regex engine.  `reFind pat ignoreCase s` models
`[m.group(0) for m in re.finditer(pat, s, re.IGNORECASE if ignoreCase else 0)]`. -/
structure NLPOracles where
  sentTokenize : String → List String
  wordTokenize : String → List String
  reFind : String → Bool → String → List String

/-- `re.escape` on the (alphanumeric) table keywords: special characters are
backslash-escaped, word characters are untouched. -/
def pyReEscape (s : String) : String :=
  ⟨s.toList.flatMap fun c => if isWordChar c then [c] else ['\\', c]⟩

/-! ## Association-list model of Python dicts

A Python dict built by successive `d[k] = v` assignments keeps each key at its
first-insertion position and overwrites the stored value; `list(d.values())`
returns values in that key order. -/

/-- `d[k] = v` on an insertion-ordered dict. -/
def dictInsert {α : Type} (d : List (String × α)) (k : String) (v : α) :
    List (String × α) :=
  if d.any (fun p => p.1 == k) then
    d.map fun p => if p.1 == k then (k, v) else p
  else
    d ++ [(k, v)]

/-- `d.get(k)` on an insertion-ordered dict. -/
def dictFind {α : Type} (d : List (String × α)) (k : String) : Option α :=
  (d.find? fun p => p.1 == k).map (·.2)

/-- `list(set(xs))`, modelled as deduplication keeping first occurrences
(Python's set iteration order is hash-based and unspecified; no property
proved here depends on the order). -/
def dedupKeepFirst (l : List String) : List String :=
  l.foldl (fun acc x => if acc.contains x then acc else acc ++ [x]) []

/-- `|a - b|` on naturals. -/
def natDist (a b : Nat) : Nat := max a b - min a b

/-- `sorted(l, key=key)[0]` for non-empty `l`: by stability of Python's sort,
the first element attaining the minimal key. -/
def firstMinBy (key : String → Nat) (x : String) (xs : List String) : String :=
  xs.foldl (fun best y => if key y < key best then y else best) x

/-! ## Stage 1: `_keyword_matching` -/

/-- `sentence.replace(keyword, f"**{keyword}**")`. -/
def highlightKw (kw s : String) : String :=
  replaceAll s kw ("**" ++ kw ++ "**")

/-- The inner sentence loop of `_keyword_matching` for one matched keyword:
append the highlighted version of every sentence containing the keyword,
suppressing duplicates already accumulated. -/
def addContexts (kw : String) (sentences : List String) (acc : List String) :
    List String :=
  sentences.foldl
    (fun a s =>
      if pyContains kw s then
        let h := highlightKw kw s
        if a.contains h then a else a ++ [h]
      else a)
    acc

/-- Accumulator of the per-indicator keyword loop of `_keyword_matching`. -/
structure KwState where
  found_keywords : List KeywordInfo
  found_context : List String
  highest : Option Strength
deriving DecidableEq, Repr

/-- One iteration of the keyword loop of `_keyword_matching`. -/
def kwStep (text : String) (sentences : List String) (minVal : Nat)
    (st : KwState) (kwInfo : KeywordInfo) : KwState :=
  if strengthVal kwInfo.strength < minVal then st
  else
    let kw := pyLower kwInfo.text
    if pyContains kw text then
      { found_keywords := st.found_keywords ++ [{ text := kw, strength := kwInfo.strength }]
        found_context := addContexts kw sentences st.found_context
        highest :=
          match st.highest with
          | none => some kwInfo.strength
          | some h =>
            if strengthVal h < strengthVal kwInfo.strength then some kwInfo.strength
            else some h }
    else st

/-- `TextAnalyzer._keyword_matching`.  The unused `words` parameter of the
source is dropped; catalog strengths are the `Strength` enum, so the
`strength_levels.get` defaults for malformed strings never fire. -/
def keyword_matching (text : String) (sentences : List String)
    (indicators : List IndicatorDef) (min_strength : Strength) :
    List IndicatorResult :=
  indicators.foldl
    (fun results ind =>
      let st := ind.keywords.foldl
        (kwStep text sentences (strengthVal min_strength)) ⟨[], [], none⟩
      if st.found_keywords ≠ [] then
        results ++
          [{ indicator_id := ind.id
             indicator_name := ind.name
             indicator_description := ind.description
             found_keywords := st.found_keywords
             overall_strength := st.highest.getD .low
             context := st.found_context.take 5 }]
      else results)
    []

/-! ## Stage 2: `_frequency_analysis` -/

/-- One step of the `keyword_counts` accumulation of `_frequency_analysis`:
record the word-boundary count of a keyword when it clears the occurrence
threshold, drop the keyword otherwise. -/
def freqCountStep (text : String) (min_occurrences : Nat)
    (d : List (String × Nat)) (kw : String) : List (String × Nat) :=
  let count := wbCount kw text
  if min_occurrences ≤ count then dictInsert d kw count else d

/-- The per-indicator body of `_frequency_analysis`: `none` when no keyword
clears the occurrence threshold (the source's `continue`).  The source's
`all_occurrences` list is computed but never read and is not modelled. -/
def freqEnhance (text : String) (total_words min_occurrences : Nat)
    (indicator : IndicatorResult) : Option IndicatorResult :=
  let all_keywords := indicator.found_keywords.map (·.text)
  let keyword_counts := all_keywords.foldl
    (freqCountStep text min_occurrences) []
  if keyword_counts = [] then none
  else
    let total_occurrences : Nat := (keyword_counts.map (·.2)).sum
    let density : ℚ := (total_occurrences : ℚ) / (total_words : ℚ) * 100
    some
      { indicator with
        frequency_data := some
          { keyword_counts := keyword_counts
            total_occurrences := total_occurrences
            density := density }
        overall_strength :=
          if 2 < density then .high
          else if 1 < density ∧ indicator.overall_strength = .low then .medium
          else indicator.overall_strength }

/-- `TextAnalyzer._frequency_analysis`. -/
def frequency_analysis (text : String) (words : List String)
    (indicator_results : List IndicatorResult) (min_occurrences : Nat) :
    List IndicatorResult :=
  let total_words := words.length
  if total_words = 0 then indicator_results
  else
    let enhanced_results :=
      indicator_results.filterMap (freqEnhance text total_words min_occurrences)
    if enhanced_results ≠ [] then enhanced_results else indicator_results

/-! ## Stage 3: `_proximity_analysis` -/

/-- The word → ordered positions index. -/
def wordPositions (words : List String) : List (String × List Nat) :=
  words.enum.foldl
    (fun d p =>
      if d.any (fun q => q.1 == p.2) then
        d.map fun q => if q.1 == p.2 then (q.1, q.2 ++ [p.1]) else q
      else d ++ [(p.2, [p.1])])
    []

/-- The representative token chosen for one found keyword (least-frequent
constituent present in the index for multi-word keywords, else the first
word), or `none` when the source appends nothing.  An empty keyword text
would raise `IndexError` in the source and is mapped to `none`. -/
def representativeOf (wp : List (String × List Nat)) (kwText : String) :
    Option String :=
  let kw_words := pySplit kwText
  if 1 < kw_words.length then
    let distinctive := kw_words.filter fun w => (dictFind wp w).isSome
    match distinctive with
    | d :: ds => some (firstMinBy (fun w => ((dictFind wp w).getD []).length) d ds)
    | [] =>
      match kw_words with
      | w :: _ => if (dictFind wp w).isSome then some w else none
      | [] => none
  else
    match kw_words with
    | w :: _ => if (dictFind wp w).isSome then some w else none
    | [] => none

/-- The ordered pairs `(reps[i], reps[j])` with `i < j`. -/
def proxPairs : List String → List (String × String)
  | [] => []
  | k :: rest => rest.map (fun k2 => (k, k2)) ++ proxPairs rest

/-- The pair-scanning loops of `_proximity_analysis`: for every position of
the first keyword, the first position of the second within `(0, max_distance]`
(the source `break`s out of the inner loop on the first hit). -/
def proximityMatchesFor (wp : List (String × List Nat)) (max_distance : Nat)
    (reps : List String) : List ProximityMatch :=
  (proxPairs reps).flatMap fun pr =>
    ((dictFind wp pr.1).getD []).filterMap fun pos1 =>
      (((dictFind wp pr.2).getD []).find? fun pos2 =>
          natDist pos1 pos2 ≤ max_distance ∧ 0 < natDist pos1 pos2).map
        fun pos2 => ⟨pr.1, pr.2, natDist pos1 pos2⟩

/-- The per-indicator body of `_proximity_analysis`. -/
def proximityEnhance (wp : List (String × List Nat)) (max_distance : Nat)
    (indicator : IndicatorResult) : IndicatorResult :=
  if indicator.found_keywords = [] then indicator
  else
    let reps := indicator.found_keywords.filterMap
      fun kw => representativeOf wp kw.text
    let proximity_matches := proximityMatchesFor wp max_distance reps
    if proximity_matches ≠ [] then
      let close_matches :=
        (proximity_matches.filter fun m => m.distance < 10).length
      { indicator with
        proximity_matches := some (proximity_matches.take 5)
        overall_strength :=
          if 3 ≤ close_matches then .high
          else if 1 ≤ close_matches ∧ indicator.overall_strength = .low then .medium
          else indicator.overall_strength }
    else indicator

/-- `TextAnalyzer._proximity_analysis`.  The unused `text` parameter of the
source is dropped. -/
def proximity_analysis (words : List String)
    (indicator_results : List IndicatorResult) (max_distance : Nat) :
    List IndicatorResult :=
  if words = [] ∨ indicator_results = [] then indicator_results
  else indicator_results.map (proximityEnhance (wordPositions words) max_distance)

/-! ## Stage 4: `_context_analysis` -/

/-- The fixed lexicon of contextual amplifier terms. -/
def amplifiers : List String :=
  ["molto", "estremamente", "assolutamente", "completamente", "totalmente",
   "certamente", "sicuramente", "definitivamente", "chiaramente", "senza dubbio",
   "sempre", "mai", "tutti", "nessuno", "ogni", "ciascuno", "qualsiasi",
   "necessario", "essenziale", "fondamentale", "cruciale", "vitale",
   "deve", "dovrebbe", "bisogna", "necessita", "richiede"]

/-- The per-indicator body of `_context_analysis`.  The escalation thresholds
count the raw (duplicate-bearing) amplifier list; the stored
`contextual_amplifiers` are the deduplicated `list(set(...))`. -/
def contextEnhance (indicator : IndicatorResult) : IndicatorResult :=
  let found_amplifiers := indicator.context.flatMap fun c =>
    amplifiers.filter fun a => pyContains (" " ++ a ++ " ") (" " ++ c ++ " ")
  if found_amplifiers ≠ [] then
    { indicator with
      contextual_amplifiers := some (dedupKeepFirst found_amplifiers)
      overall_strength :=
        if 3 ≤ found_amplifiers.length then .high
        else if 1 ≤ found_amplifiers.length ∧ indicator.overall_strength = .low then .medium
        else indicator.overall_strength }
  else indicator

/-- `TextAnalyzer._context_analysis`. -/
def context_analysis (sentences : List String)
    (indicator_results : List IndicatorResult) : List IndicatorResult :=
  if sentences = [] ∨ indicator_results = [] then indicator_results
  else indicator_results.map contextEnhance

/-! ## Stage 5: `_pattern_matching`

The per-category regex table is embedded verbatim (Lean escaping: `\\` for a
regex backslash, `\x7b`/`\x7d` for literal braces, `\x27` for an apostrophe);
the regex engine itself is the `reFind` oracle. -/

/-- The fixed per-category regex pattern table of `_pattern_matching`. -/
def patternTable : List (String × List String) :=
  [("extreme_nationalism",
    ["\\b(nostr[ao]|italian[ao]|patri[ao])(?:\\s+\\w+)\x7b0,5\x7d\\s+(superior[ei]|miglior[ei]|grand[ei]|glori[ae])\\b",
     "\\b(difendere|proteggere|salvare)(?:\\s+\\w+)\x7b0,3\x7d\\s+(italia|nazione|patria)\\b"]),
   ("revisionism",
    ["\\b(storia|verità)(?:\\s+\\w+)\x7b0,5\x7d\\s+(nascost[ao]|segret[ao]|manipolat[ao]|falsat[ao])\\b",
     "\\b(non\\s+è\\s+vero|falso|bugia|menzogna)(?:\\s+\\w+)\x7b0,10\x7d\\s+(accadut[ao]|successo|Holocaust?o|genocidio)\\b"]),
   ("hate_speech",
    ["\\b(immigrat[io]|stranier[io]|migranti)(?:\\s+\\w+)\x7b0,5\x7d\\s+(invasion[ei]|pericol[io]|minacci[ae]|criminali)\\b",
     "\\b(difendere|proteggere|salvare)(?:\\s+\\w+)\x7b0,3\x7d\\s+(razza|etnia|popolo|identità)\\b"]),
   ("specific_symbolism",
    ["\\b(duce|fascismo|ventennio)(?:\\s+\\w+)\x7b0,5\x7d\\s+(grand[ei]|glori[ae]|ritorner[àae])\\b"]),
   ("anti_democracy",
    ["\\b(democrazia|parlamento|repubblica)(?:\\s+\\w+)\x7b0,5\x7d\\s+(fall[iu]t[ao]|debole|corrott[ao]|inefficiente)\\b",
     "\\b(serve|necessario|occorre)(?:\\s+\\w+)\x7b0,5\x7d\\s+(uomo\\s+forte|leader\\s+forte|mano\\s+ferma)\\b"]),
   ("victimhood",
    ["\\b(italian[io]|nostr[ao]\\s+popolo)(?:\\s+\\w+)\x7b0,5\x7d\\s+(vittim[ae]|perseguitat[io]|discriminat[io])\\b",
     "\\b(ci|noi|italian[io])(?:\\s+\\w+)\x7b0,3\x7d\\s+(vogliono|cercano\\s+di)(?:\\s+\\w+)\x7b0,3\x7d\\s+(sostituire|eliminare|cancellare)\\b"]),
   ("traditionalism",
    ["\\b(famiglia|valori|tradizion[ei])(?:\\s+\\w+)\x7b0,5\x7d\\s+(natural[ei]|distrutt[io]|attaccat[io]|minacciat[io])\\b",
     "\\b(teoria|ideologia|propaganda)(?:\\s+\\w+)\x7b0,3\x7d\\s+gender\\b"]),
   ("militarism",
    ["\\b(lotta|battaglia|guerra|combattimento)(?:\\s+\\w+)\x7b0,5\x7d\\s+(necessari[ao]|inevitabile|occorre)\\b",
     "\\b(violenza|forza)(?:\\s+\\w+)\x7b0,5\x7d\\s+(unica\\s+soluzione|necessaria|richiesta)\\b"]),
   ("conspiracy_theories",
    ["\\b(poteri\\s+forti|elite|lobby|globalisti)(?:\\s+\\w+)\x7b0,10\x7d\\s+(controllano|manipolano|dominano)\\b",
     "\\b(piano|complotto|cospirazione)(?:\\s+\\w+)\x7b0,5\x7d\\s+(mondiale|globale|internazionale)\\b"]),
   ("enemy_otherization",
    ["\\b(nemici|traditori|collaborazionisti)(?:\\s+\\w+)\x7b0,5\x7d\\s+(intern[io]|della\\s+patria|della\\s+nazione)\\b",
     "\\b(loro|questi)(?:\\s+\\w+)\x7b0,3\x7d\\s+(vogliono|cercano\\s+di)(?:\\s+\\w+)\x7b0,3\x7d\\s+(distruggere|indebolire|sovvertire)\\b"])]

/-- The strength escalation applied by `_pattern_matching` to an already
present indicator (`medium → high`, `low → medium`, `high` unchanged). -/
def patternEscalate : Strength → Strength
  | .low => .medium
  | .medium => .high
  | .high => .high

/-- `results_by_id = {r["indicator_id"]: r for r in indicator_results}`. -/
def buildDict (l : List IndicatorResult) : List (String × IndicatorResult) :=
  l.foldl (fun d r => dictInsert d r.indicator_id r) []

/-- One category step of `_pattern_matching`: on a match, escalate an
existing result for that id, or synthesise a fresh one from the (full)
catalog definition. -/
def patStep (o : NLPOracles) (catalogIndicators : List IndicatorDef)
    (text : String) (d : List (String × IndicatorResult))
    (cat : String × List String) : List (String × IndicatorResult) :=
  let pattern_matches := cat.2.flatMap fun p => o.reFind p false text
  if pattern_matches ≠ [] then
    match dictFind d cat.1 with
    | some indicator =>
      dictInsert d cat.1
        { indicator with
          pattern_matches := some (pattern_matches.take 5)
          overall_strength := patternEscalate indicator.overall_strength }
    | none =>
      match catalogIndicators.find? (fun ind => ind.id == cat.1) with
      | some indicator_def =>
        dictInsert d cat.1
          { indicator_id := cat.1
            indicator_name := indicator_def.name
            indicator_description := indicator_def.description
            found_keywords := []
            pattern_matches := some (pattern_matches.take 5)
            overall_strength := .medium }
      | none => d
  else d

/-- `TextAnalyzer._pattern_matching`.  `catalogIndicators` is the analyzer's
full `self.indicators` catalog (note: *not* the category-filtered list).
The unused `sentences` parameter of the source is dropped. -/
def pattern_matching (o : NLPOracles) (catalogIndicators : List IndicatorDef)
    (text : String) (indicator_results : List IndicatorResult) :
    List IndicatorResult :=
  (patternTable.foldl (patStep o catalogIndicators text)
    (buildDict indicator_results)).map (·.2)

/-! ## Stage 6: `_sentiment_analysis` -/

/-- The positive-polarity lexicon. -/
def positive_words : List String :=
  ["buono", "grande", "migliore", "positivo", "ottimo", "eccellente", "giusto",
   "perfetto", "bene", "forte", "vero", "superiore", "glorioso", "felice", "meraviglioso"]

/-- The negative-polarity lexicon. -/
def negative_words : List String :=
  ["cattivo", "terribile", "peggiore", "negativo", "pessimo", "orribile", "sbagliato",
   "difettoso", "male", "debole", "falso", "inferiore", "triste", "tragico", "pericoloso"]

/-- The threat lexicon. -/
def threat_words : List String :=
  ["minaccia", "pericolo", "rischio", "attacco", "difesa", "protezione", "invasione",
   "nemico", "traditore", "combattere", "guerra", "battaglia", "lotta", "crisi", "emergenza"]

/-- The text-global scores of `_sentiment_analysis`:
`(positive_score, negative_score, threat_score, total, normalized)`. -/
def sentimentScores (text : String) : SentimentData :=
  let words_lower := (pySplit text).map pyLower
  let positive_score := (words_lower.filter (positive_words.contains ·)).length
  let negative_score := (words_lower.filter (negative_words.contains ·)).length
  let threat_score := (words_lower.filter (threat_words.contains ·)).length
  let total_sentiment : Int := (positive_score : Int) - (negative_score : Int)
  { positive_score := positive_score
    negative_score := negative_score
    threat_score := threat_score
    total_sentiment := total_sentiment
    normalized_sentiment :=
      if words_lower ≠ [] then (total_sentiment : ℚ) / (words_lower.length : ℚ) else 0 }

/-- The per-indicator body of `_sentiment_analysis`. -/
def sentimentEnhance (text : String) (indicator : IndicatorResult) :
    IndicatorResult :=
  let sd := sentimentScores text
  let nwords := ((pySplit text).map pyLower).length
  { indicator with
    sentiment_data := some sd
    overall_strength :=
      if 5 < sd.threat_score ∧
          (0.02 : ℚ) < (sd.threat_score : ℚ) / (nwords : ℚ) then .high
      else indicator.overall_strength }

/-- `TextAnalyzer._sentiment_analysis`.  The unused `sentences` parameter of
the source is dropped; the text-global scores, computed once in the source,
are recomputed per indicator (same values). -/
def sentiment_analysis (text : String)
    (indicator_results : List IndicatorResult) : List IndicatorResult :=
  indicator_results.map (sentimentEnhance text)

/-! ## Stage 7: `_noun_phrase_analysis` -/

/-- The nationalist noun-phrase regex list. -/
def nationalist_phrases : List String :=
  ["(nostr[oa] (popolo|nazione|patria|paese|terra|cultura|tradizione|identità))",
   "(grand[ei] (italia|nazione|patria|paese|popolo))",
   "(vera (italia|nazione|patria|identità))",
   "(difesa (nazionale|della patria|dell\x27italia|dei confini))",
   "(italia agli italiani)",
   "(italiani (prima|veri))"]

/-- The anti-democratic noun-phrase regex list. -/
def anti_democratic_phrases : List String :=
  ["((falsa|finta) democrazia)",
   "(governo (forte|autoritario|deciso))",
   "(mano (dura|ferma|forte))",
   "(leadership (forte|decisa))",
   "(parlamento (corrotto|inutile|inefficace))",
   "(classe politica (corrotta|venduta|traditrice))"]

/-- The enemy-framing noun-phrase regex list. -/
def enemy_phrases : List String :=
  ["((loro|questi) vogliono (distruggere|eliminare|cancellare))",
   "(nemici (interni|esterni|dell\x27italia|della patria|del popolo))",
   "(traditori (della patria|dell\x27italia|del popolo))",
   "(poteri (forti|occulti|globali))",
   "(complotto (internazionale|mondiale|globale))",
   "(piano (di sostituzione|per (distruggere|eliminare)))"]

/-- The text-global phrase-match groups of `_noun_phrase_analysis` (patterns
applied with `re.IGNORECASE`). -/
def allPhraseMatches (o : NLPOracles) (text : String) :
    List (String × List String) :=
  [("nationalist_phrases", nationalist_phrases.flatMap fun p => o.reFind p true text),
   ("anti_democratic_phrases", anti_democratic_phrases.flatMap fun p => o.reFind p true text),
   ("enemy_phrases", enemy_phrases.flatMap fun p => o.reFind p true text)]

/-- The per-indicator body of `_noun_phrase_analysis`. -/
def nounPhraseEnhance (o : NLPOracles) (text : String)
    (indicator : IndicatorResult) : IndicatorResult :=
  let all_phrase_matches := allPhraseMatches o text
  let total_phrases : Nat := (all_phrase_matches.map (·.2.length)).sum
  { indicator with
    noun_phrase_matches := some
      ((all_phrase_matches.filter (·.2 ≠ [])).map fun p => (p.1, p.2.take 3))
    overall_strength :=
      if 5 ≤ total_phrases then .high
      else if 2 ≤ total_phrases ∧ indicator.overall_strength = .low then .medium
      else indicator.overall_strength }

/-- `TextAnalyzer._noun_phrase_analysis`.  The unused `sentences` parameter
of the source is dropped; the text-global matches, computed once in the
source, are recomputed per indicator (same values). -/
def noun_phrase_analysis (o : NLPOracles) (text : String)
    (indicator_results : List IndicatorResult) : List IndicatorResult :=
  indicator_results.map (nounPhraseEnhance o text)

/-! ## Stage 8: `_propaganda_technique_analysis` -/

/-- The propaganda-technique regex table. -/
def propagandaTechniqueTable : List (String × List String) :=
  [("bandwagon",
    ["tutt[ie] (sanno|pensano|credono|sono d\x27accordo)",
     "(la maggioranza|la gente|gli italiani) (vuole|pensa|crede|sa)",
     "(è ormai|è diventato) (evidente|chiaro|ovvio) (a tutti|per tutti)"]),
   ("black_and_white",
    ["(o con noi o contro di noi)",
     "(amico o nemico)",
     "(patriot[ai] o traditor[ei])",
     "(o si è|o sei) (italian[oi]|patriot[ai]) o",
     "non ci sono vie di mezzo",
     "(senza|non esistono) mezze misure"]),
   ("appeal_to_fear",
    ["(se non|se continuiamo) (agiamo|facciamo|interveniamo) (sarà|potrebbe essere|diventerà) (troppo tardi|la fine)",
     "(rischiamo|siamo a rischio di) (estinzione|sostituzione|distruzione|fine)",
     "(la nostra (civiltà|cultura|nazione|società)) (è in pericolo|rischia di scomparire)",
     "(stanno cercando di|vogliono|il loro piano è) (distrugg|elimin|cancell)are"]),
   ("glittering_generalities",
    ["(vero|autentico|puro) (italiano|patriota|cittadino)",
     "(valori|principi|tradizioni) (veri|autentici|puri)",
     "(vera|autentica|pura) (libertà|giustizia|democrazia)",
     "(onore|gloria|dignità|orgoglio) (nazionale|patrio|italiano)"]),
   ("name_calling",
    ["(traditor[ei]|vendut[oi]|corrot[oi]|nemici|buonist[ai])",
     "(radical chic|zeccch[ei]|comunist[ai]|fascist[ai]|nazis[ai]|teppist[ai])",
     "(sciacall[ai]|opportunist[ai]|profitator[ai]|parassit[ai])",
     "(invasor[ei]|illegali|clandestini|criminali)"])]

/-- The text-global technique-match dict of `_propaganda_technique_analysis`
(patterns applied with `re.IGNORECASE`; only techniques with matches are
present). -/
def techniqueMatches (o : NLPOracles) (text : String) :
    List (String × List String) :=
  propagandaTechniqueTable.foldl
    (fun tm tech =>
      let ms := tech.2.flatMap fun p => o.reFind p true text
      if ms ≠ [] then tm ++ [(tech.1, ms)] else tm)
    []

/-- The per-indicator body of `_propaganda_technique_analysis`. -/
def propagandaEnhance (o : NLPOracles) (text : String)
    (indicator : IndicatorResult) : IndicatorResult :=
  let technique_matches := techniqueMatches o text
  let total_techniques := technique_matches.length
  let total_instances : Nat := (technique_matches.map (·.2.length)).sum
  { indicator with
    propaganda_techniques := some
      (technique_matches.map fun p => (p.1, p.2.take 3))
    propaganda_score := some
      { total_techniques := total_techniques, total_instances := total_instances }
    overall_strength :=
      if 3 ≤ total_techniques ∨ 5 ≤ total_instances then .high
      else if (2 ≤ total_techniques ∨ 3 ≤ total_instances) ∧
          indicator.overall_strength = .low then .medium
      else indicator.overall_strength }

/-- `TextAnalyzer._propaganda_technique_analysis`.  The unused `sentences`
parameter of the source is dropped; the text-global matches, computed once in
the source, are recomputed per indicator (same values). -/
def propaganda_technique_analysis (o : NLPOracles) (text : String)
    (indicator_results : List IndicatorResult) : List IndicatorResult :=
  indicator_results.map (propagandaEnhance o text)

/-! ## Stage 9: `_topic_coherence_analysis` -/

/-- The per-category topic keyword table. -/
def topicKeywordTable : List (String × List String) :=
  [("extreme_nationalism",
    ["patria", "nazione", "italia", "italiano", "italiani", "identità", "sangue",
     "razza", "tradizione", "orgoglio", "tricolore", "sovranità", "confini"]),
   ("revisionism",
    ["storia", "verità", "manipolazione", "menzogna", "propaganda", "bugie",
     "falsificazione", "revisionismo", "vincitori", "esagerazione"]),
   ("hate_speech",
    ["invasione", "sostituzione", "immigrati", "etnico", "piano", "criminali",
     "degrado", "islamizzazione", "incompatibile", "kalergi"]),
   ("anti_democracy",
    ["democrazia", "corrotta", "parlamento", "inutile", "inefficace", "decisione",
     "leader", "forte", "comando", "ordine", "autorità", "necessità"]),
   ("victimhood",
    ["vittima", "minacciati", "attaccati", "perseguitati", "discriminati",
     "complotto", "silenzio", "cancellare", "identità", "pericolo"]),
   ("enemy_otherization",
    ["nemici", "minaccia", "loro", "questi", "diversi", "stranieri", "traditori",
     "pericolo", "disegno", "complice", "contaminare", "distruggere"])]

/-- `r'\b' + re.escape(keyword) + r'\w*\b'`: the stem-matching pattern of
`_topic_coherence_analysis`. -/
def stemPattern (kw : String) : String :=
  "\\b" ++ pyReEscape kw ++ "\\w*\\b"

/-- The text-global per-category topic counts of `_topic_coherence_analysis`
(only categories with at least one match are present). -/
def topicCounts (o : NLPOracles) (text : String) : List (String × TopicData) :=
  topicKeywordTable.foldl
    (fun tc cat =>
      let ms := cat.2.flatMap fun kw => o.reFind (stemPattern kw) false text
      if 0 < ms.length then tc ++ [(cat.1, ⟨ms.length, ms.take 5⟩)] else tc)
    []

/-- The sentence-level coherent segments of `_topic_coherence_analysis`
(sentences containing keywords of at least two distinct topic categories). -/
def coherentSegments (o : NLPOracles) (sentences : List String) :
    List CoherentSegment :=
  sentences.enum.filterMap fun p =>
    let categories_in_sentence : List (String × List String) :=
      topicKeywordTable.foldl
        (fun acc cat =>
          let ms := cat.2.flatMap fun kw => o.reFind (stemPattern kw) false p.2
          if ms ≠ [] then acc ++ [(cat.1, ms)] else acc)
        []
    if 2 ≤ categories_in_sentence.length then
      some
        { sentence_idx := p.1
          sentence := p.2
          categories := categories_in_sentence.map (·.1)
          seg_matches := categories_in_sentence }
    else none

/-- The per-indicator body of `_topic_coherence_analysis` (the approximate
either-direction substring attachment rule is preserved as-is). -/
def topicEnhance (o : NLPOracles) (text : String) (sentences : List String)
    (indicator : IndicatorResult) : IndicatorResult :=
  let topic_counts := topicCounts o text
  let matching_topics := (topic_counts.map (·.1)).filter fun cat =>
    cat == indicator.indicator_id ||
      (pyContains cat indicator.indicator_id ||
        pyContains indicator.indicator_id cat)
  if matching_topics ≠ [] then
    let all_topic_data := matching_topics.filterMap fun t =>
      (dictFind topic_counts t).map ((t, ·))
    if all_topic_data ≠ [] then
      let segs := ((coherentSegments o sentences).filter fun seg =>
        matching_topics.any (seg.categories.contains ·)).take 3
      let total_matches : Nat := (all_topic_data.map (·.2.count)).sum
      let coherent_sentences := segs.length
      { indicator with
        topic_coherence := some
          { topic_data := all_topic_data, coherent_segments := segs }
        overall_strength :=
          if 10 < total_matches ∧ 2 ≤ coherent_sentences then .high
          else if 5 < total_matches ∧ 1 ≤ coherent_sentences ∧
              indicator.overall_strength = .low then .medium
          else indicator.overall_strength }
    else indicator
  else indicator

/-- `TextAnalyzer._topic_coherence_analysis`; the text-global data, computed
once in the source, is recomputed per indicator (same values). -/
def topic_coherence_analysis (o : NLPOracles) (text : String)
    (sentences : List String) (indicator_results : List IndicatorResult) :
    List IndicatorResult :=
  if sentences = [] ∨ indicator_results = [] then indicator_results
  else indicator_results.map (topicEnhance o text sentences)

/-! ## Stage 10: `_rhetorical_device_analysis` -/

/-- The rhetorical-device regex table. -/
def rhetoricalDeviceTable : List (String × List String) :=
  [("repetition",
    ["(\\b\\w+\\b)(?:\\s+\\w+)\x7b0,3\x7d?\\s+\\1(?:\\s+\\w+)\x7b0,3\x7d?\\s+\\1\\b",
     "(\\b\\w\x7b7,\x7d\\b)(?:\\s+\\w+)\x7b0,5\x7d?\\s+\\1\\b"]),
   ("slogans",
    ["\\b(italia agli italiani|prima gli italiani|padroni a casa nostra|difendiamo i confini)\\b",
     "\\b(traditori della patria|nemici del popolo|amici dei banchieri)\\b"]),
   ("hyperbole",
    ["\\b(sempre|mai|tutti|nessuno|impossibile|inaccettabile|assolutamente)\\b",
     "\\b(catastrofe|disastro|apocalisse|invasione|estinzione|distruzione)\\b"]),
   ("dehumanization",
    ["\\b(parassiti|virus|malattia|cancro|piaga|problema)\\b(?:\\s+\\w+)\x7b0,5\x7d?\\b(societ[aà]|nazione|italia|paese)\\b",
     "\\b(bestie|animali|selvaggi|barbari)\\b"]),
   ("false_dilemma",
    ["\\b(o|oppure|altrimenti)\\b(?:\\s+\\w+)\x7b0,3\x7d?\\b(o|oppure|altrimenti)\\b",
     "\\b(non c[i\x27]è|senza)\\b(?:\\s+\\w+)\x7b0,3\x7d?\\b(alternativa|altra scelta|via di mezzo)\\b"]),
   ("loaded_questions",
    ["\\b(chi|come|quando|perché)\\b(?:\\s+\\w+)\x7b0,10\x7d?\\b(ancora|continua|permette|tollera|accetta|consente)\\b",
     "\\b(fino a quando|per quanto tempo ancora)\\b"]),
   ("appeal_to_authority",
    ["\\b(esperti|scienziati|studi|ricerche|statistiche)\\b(?:\\s+\\w+)\x7b0,5\x7d?\\b(dimostrano|provano|confermano)\\b",
     "\\b(la storia|il passato)\\b(?:\\s+\\w+)\x7b0,5\x7d?\\b(insegna|dimostra|prova)\\b"])]

/-- The text-global device-match dict of `_rhetorical_device_analysis`
(patterns applied with `re.IGNORECASE`; only devices with matches are
present). -/
def deviceMatches (o : NLPOracles) (text : String) :
    List (String × List String) :=
  rhetoricalDeviceTable.foldl
    (fun dm dev =>
      let ms := dev.2.flatMap fun p => o.reFind p true text
      if ms ≠ [] then dm ++ [(dev.1, ms)] else dm)
    []

/-- The escalating-rhetoric flag: some window `sentences[i:i+5]` with
`i < len(sentences) - 5` (note the source misses the final window) joined by
spaces contains at least 3 device-pattern matches in total. -/
def escalatingRhetoric (o : NLPOracles) (sentences : List String) : Bool :=
  (List.range (sentences.length - 5)).any fun i =>
    let window := String.intercalate " " ((sentences.drop i).take 5)
    3 ≤ (rhetoricalDeviceTable.flatMap fun dev =>
      dev.2.flatMap fun p => o.reFind p true window).length

/-- The per-indicator body of `_rhetorical_device_analysis`. -/
def rhetoricalEnhance (o : NLPOracles) (text : String)
    (sentences : List String) (indicator : IndicatorResult) : IndicatorResult :=
  let device_matches := deviceMatches o text
  let total_devices := device_matches.length
  let total_instances : Nat := (device_matches.map (·.2.length)).sum
  let escalating_rhetoric := escalatingRhetoric o sentences
  { indicator with
    rhetorical_devices := some
      { devices_found := device_matches.map fun p => (p.1, p.2.take 3)
        total_devices := total_devices
        total_instances := total_instances
        escalating_rhetoric := escalating_rhetoric }
    overall_strength :=
      if escalating_rhetoric ∨ 4 ≤ total_devices ∨ 7 ≤ total_instances then .high
      else if (2 ≤ total_devices ∨ 4 ≤ total_instances) ∧
          indicator.overall_strength = .low then .medium
      else indicator.overall_strength }

/-- `TextAnalyzer._rhetorical_device_analysis`; the text-global data,
computed once in the source, is recomputed per indicator (same values). -/
def rhetorical_device_analysis (o : NLPOracles) (text : String)
    (sentences : List String) (indicator_results : List IndicatorResult) :
    List IndicatorResult :=
  if sentences = [] ∨ indicator_results = [] then indicator_results
  else indicator_results.map (rhetoricalEnhance o text sentences)

/-! ## `_weighted_analysis_combination`

The source accumulates `indicator_score` and `evidence_factors` in lockstep
through ten sequential `if`-blocks, each guarded by "stage field present (and
stage enabled)" and each adding `subscore * weight` while appending the
matching factor.  The embedding renders each block as an optional evidence
factor (conditions and arithmetic unchanged); the running score is then the
sum of the collected contributions. -/

/-- The fixed `method_weights` table. -/
def method_weights : List (String × ℚ) :=
  [("keywordMatching", 1.0),
   ("frequencyAnalysis", 0.8),
   ("proximityAnalysis", 0.7),
   ("contextAnalysis", 0.6),
   ("patternMatching", 0.9),
   ("sentimentAnalysis", 0.4),
   ("nounPhraseAnalysis", 0.7),
   ("propagandaTechniqueAnalysis", 0.9),
   ("topicCoherenceAnalysis", 0.8),
   ("rhetoricalDeviceAnalysis", 0.8)]

/-- `method_weights[m]` (every lookup in the source uses a key of the table,
so the default never fires). -/
def weightOf (m : String) : ℚ :=
  (dictFind method_weights m).getD 0

/-- The keys of `used_methods` that are present (and hence `True`), in the
fixed order in which `analyze_text` inserts them. -/
def usedMethodNames (u : Methods) : List String :=
  (if u.keywordMatching then ["keywordMatching"] else []) ++
  (if u.frequencyAnalysis then ["frequencyAnalysis"] else []) ++
  (if u.proximityAnalysis then ["proximityAnalysis"] else []) ++
  (if u.contextAnalysis then ["contextAnalysis"] else []) ++
  (if u.patternMatching then ["patternMatching"] else []) ++
  (if u.sentimentAnalysis then ["sentimentAnalysis"] else []) ++
  (if u.nounPhraseAnalysis then ["nounPhraseAnalysis"] else []) ++
  (if u.propagandaTechniqueAnalysis then ["propagandaTechniqueAnalysis"] else []) ++
  (if u.topicCoherenceAnalysis then ["topicCoherenceAnalysis"] else []) ++
  (if u.rhetoricalDeviceAnalysis then ["rhetoricalDeviceAnalysis"] else [])

/-- `sum(method_weights[m] for m, used in used_methods.items() if used)`. -/
def enabledWeightSum (u : Methods) : ℚ :=
  ((usedMethodNames u).map weightOf).sum

/-- Python's `max` over strength *name strings* compares lexicographically,
where `"high" < "low" < "medium"`; this is the comparison key. -/
def pyNameOrd : Strength → Nat
  | .high => 0
  | .low => 1
  | .medium => 2

/-- `max(kw["strength"] for kw in found_keywords)` — the lexicographic string
maximum (ties keep the earlier element, which is value-identical). -/
def pyStrengthMax (s : Strength) (rest : List Strength) : Strength :=
  rest.foldl (fun a b => if pyNameOrd a < pyNameOrd b then b else a) s

/-- Base keyword-matching factor (`found_keywords` is always a present key in
the model, so the source's `"found_keywords" in indicator` guard is just
non-emptiness). -/
def kwFactor (indicator : IndicatorResult) : Option EvidenceFactor :=
  match indicator.found_keywords with
  | [] => none
  | k :: ks =>
    let highest_strength := pyStrengthMax k.strength (ks.map (·.strength))
    some ⟨"keywordMatching",
      (strengthVal highest_strength : ℚ) * weightOf "keywordMatching"⟩

/-- Frequency-analysis factor. -/
def freqFactor (indicator : IndicatorResult) (used : Methods) :
    Option EvidenceFactor :=
  match indicator.frequency_data with
  | some fd =>
    if used.frequencyAnalysis then
      let freq_score : ℚ :=
        if 2 < fd.density then 3 else if 1 < fd.density then 2 else 1
      some ⟨"frequencyAnalysis", freq_score * weightOf "frequencyAnalysis"⟩
    else none
  | none => none

/-- Proximity-analysis factor. -/
def proxFactor (indicator : IndicatorResult) (used : Methods) :
    Option EvidenceFactor :=
  match indicator.proximity_matches with
  | some proximity_matches =>
    if used.proximityAnalysis then
      let close_matches := (proximity_matches.filter fun m => m.distance < 10).length
      let prox_score : ℚ :=
        if 3 ≤ close_matches then 3 else if 1 ≤ close_matches then 2 else 1
      some ⟨"proximityAnalysis", prox_score * weightOf "proximityAnalysis"⟩
    else none
  | none => none

/-- Context-analysis factor. -/
def contextFactor (indicator : IndicatorResult) (used : Methods) :
    Option EvidenceFactor :=
  match indicator.contextual_amplifiers with
  | some amps =>
    if used.contextAnalysis then
      let context_score : ℚ :=
        if 3 ≤ amps.length then 3 else if 1 ≤ amps.length then 2 else 1
      some ⟨"contextAnalysis", context_score * weightOf "contextAnalysis"⟩
    else none
  | none => none

/-- Pattern-matching factor (floor of 2). -/
def patternFactor (indicator : IndicatorResult) (used : Methods) :
    Option EvidenceFactor :=
  match indicator.pattern_matches with
  | some pattern_matches =>
    if used.patternMatching then
      let pattern_score : ℚ := if 3 ≤ pattern_matches.length then 3 else 2
      some ⟨"patternMatching", pattern_score * weightOf "patternMatching"⟩
    else none
  | none => none

/-- Sentiment-analysis factor.  `total_words` is read from the indicator's
`"text"` key via `indicator.get("text", "")`. -/
def sentimentFactor (indicator : IndicatorResult) (used : Methods) :
    Option EvidenceFactor :=
  match indicator.sentiment_data with
  | some sd =>
    if used.sentimentAnalysis then
      let total_words0 := (pySplit (indicator.text.getD "")).length
      let total_words := if total_words0 = 0 then 100 else total_words0
      let sentiment_score : ℚ :=
        if 5 < sd.threat_score ∧
            (0.02 : ℚ) < (sd.threat_score : ℚ) / (total_words : ℚ) then 3
        else if 2 < sd.threat_score then 2
        else 1
      some ⟨"sentimentAnalysis", sentiment_score * weightOf "sentimentAnalysis"⟩
    else none
  | none => none

/-- Noun-phrase factor (counts the stored, truncated example lists). -/
def nounPhraseFactor (indicator : IndicatorResult) (used : Methods) :
    Option EvidenceFactor :=
  match indicator.noun_phrase_matches with
  | some noun_phrase_data =>
    if used.nounPhraseAnalysis then
      let total_phrases : Nat := (noun_phrase_data.map (·.2.length)).sum
      let phrase_score : ℚ :=
        if 5 ≤ total_phrases then 3 else if 2 ≤ total_phrases then 2 else 1
      some ⟨"nounPhraseAnalysis", phrase_score * weightOf "nounPhraseAnalysis"⟩
    else none
  | none => none

/-- Propaganda-technique factor (counts the stored, truncated example
lists). -/
def propagandaFactor (indicator : IndicatorResult) (used : Methods) :
    Option EvidenceFactor :=
  match indicator.propaganda_techniques with
  | some propaganda_data =>
    if used.propagandaTechniqueAnalysis then
      let total_techniques := propaganda_data.length
      let total_instances : Nat := (propaganda_data.map (·.2.length)).sum
      let propaganda_score : ℚ :=
        if 3 ≤ total_techniques ∨ 5 ≤ total_instances then 3
        else if 2 ≤ total_techniques ∨ 3 ≤ total_instances then 2
        else 1
      some ⟨"propagandaTechniqueAnalysis",
        propaganda_score * weightOf "propagandaTechniqueAnalysis"⟩
    else none
  | none => none

/-- Topic-coherence factor. -/
def topicFactor (indicator : IndicatorResult) (used : Methods) :
    Option EvidenceFactor :=
  match indicator.topic_coherence with
  | some tc =>
    if used.topicCoherenceAnalysis then
      let total_matches : Nat := (tc.topic_data.map (·.2.count)).sum
      let coherence_score : ℚ :=
        if 10 < total_matches ∧ 2 ≤ tc.coherent_segments.length then 3
        else if 5 < total_matches ∧ 1 ≤ tc.coherent_segments.length then 2
        else 1
      some ⟨"topicCoherenceAnalysis",
        coherence_score * weightOf "topicCoherenceAnalysis"⟩
    else none
  | none => none

/-- Rhetorical-device factor. -/
def rhetoricFactor (indicator : IndicatorResult) (used : Methods) :
    Option EvidenceFactor :=
  match indicator.rhetorical_devices with
  | some rd =>
    if used.rhetoricalDeviceAnalysis then
      let rhetoric_score : ℚ :=
        if rd.escalating_rhetoric ∨ 4 ≤ rd.total_devices ∨ 7 ≤ rd.total_instances then 3
        else if 2 ≤ rd.total_devices ∨ 4 ≤ rd.total_instances then 2
        else 1
      some ⟨"rhetoricalDeviceAnalysis",
        rhetoric_score * weightOf "rhetoricalDeviceAnalysis"⟩
    else none
  | none => none

/-- The evidence factors collected for one indicator, in the source's fixed
block order. -/
def combinerFactors (indicator : IndicatorResult) (used : Methods) :
    List EvidenceFactor :=
  [kwFactor indicator, freqFactor indicator used, proxFactor indicator used,
   contextFactor indicator used, patternFactor indicator used,
   sentimentFactor indicator used, nounPhraseFactor indicator used,
   propagandaFactor indicator used, topicFactor indicator used,
   rhetoricFactor indicator used].filterMap id

/-- The per-indicator body of `_weighted_analysis_combination`: sum the
contributions, normalize by `max(1, enabled-weight sum)`, bucket the final
strength, attach `combined_analysis` and overwrite `overall_strength`. -/
def combineEnhance (used_methods : Methods) (indicator : IndicatorResult) :
    IndicatorResult :=
  let evidence_factors := combinerFactors indicator used_methods
  let indicator_score : ℚ := (evidence_factors.map (·.contribution)).sum
  let methods_used := evidence_factors.length
  let normalized_score := indicator_score / max 1 (enabledWeightSum used_methods)
  let final_strength : Strength :=
    if (2.5 : ℚ) ≤ normalized_score then .high
    else if (1.5 : ℚ) ≤ normalized_score then .medium
    else .low
  { indicator with
    combined_analysis := some
      { score := normalized_score
        strength := final_strength
        evidence_factors := evidence_factors
        methods_used := methods_used }
    overall_strength := final_strength }

/-- `TextAnalyzer._weighted_analysis_combination`. -/
def weighted_analysis_combination (results : List IndicatorResult)
    (used_methods : Methods) : List IndicatorResult :=
  if results = [] then results
  else results.map (combineEnhance used_methods)

/-! ## `analyze_text` and the text-analysis cache -/

/-- `TextAnalyzer.preprocess_text`: lowercase, collapse whitespace, then
tokenize into sentences and words via the NLTK oracles. -/
def preprocess_text (o : NLPOracles) (text : String) :
    String × List String × List String :=
  let text_lower := collapseWs (pyLower text)
  (text_lower, o.sentTokenize text_lower, o.wordTokenize text_lower)

/-- `ContentCache.text_cache`, keyed by the analyzed text (standing in for
its MD5 hash); entry expiry timestamps are not modelled — every stored entry
is within its freshness window. -/
abbrev Cache := List (String × Report)

/-- `ContentCache.get_text_analysis`. -/
def cacheGet (cache : Cache) (text : String) : Option Report :=
  dictFind cache text

/-- `ContentCache.set_text_analysis`. -/
def cacheSet (cache : Cache) (text : String) (r : Report) : Cache :=
  dictInsert cache text r

/-- The category filter applied before keyword matching:
`[ind for ind in self.indicators if ind["id"] in category_ids]` when
`category_ids` is non-empty, the whole catalog otherwise. -/
def filteredCatalog (catalog : List IndicatorDef) (category_ids : List String) :
    List IndicatorDef :=
  if category_ids ≠ [] then catalog.filter fun ind => category_ids.contains ind.id
  else catalog

/-- The `used_methods` dictionary accumulated by `analyze_text` when it does
not take the early exit: `keywordMatching` plus every enabled optional
stage. -/
def usedMethodsOf (methods : Methods) : Methods :=
  { keywordMatching := true
    frequencyAnalysis := methods.frequencyAnalysis
    proximityAnalysis := methods.proximityAnalysis
    contextAnalysis := methods.contextAnalysis
    patternMatching := methods.patternMatching
    sentimentAnalysis := methods.sentimentAnalysis
    nounPhraseAnalysis := methods.nounPhraseAnalysis
    propagandaTechniqueAnalysis := methods.propagandaTechniqueAnalysis
    topicCoherenceAnalysis := methods.topicCoherenceAnalysis
    rhetoricalDeviceAnalysis := methods.rhetoricalDeviceAnalysis }

/-- Steps 2–10 of `analyze_text`: thread the keyword-matching output through
every enabled optional stage in the fixed order. -/
def runStages (o : NLPOracles) (catalog : List IndicatorDef)
    (methods : Methods) (thresholds : Thresholds) (preprocessed_text : String)
    (sentences words : List String) (results0 : List IndicatorResult) :
    List IndicatorResult :=
  let results1 :=
    if methods.frequencyAnalysis then
      frequency_analysis preprocessed_text words results0 thresholds.minOccurrences
    else results0
  let results2 :=
    if methods.proximityAnalysis then
      proximity_analysis words results1 thresholds.proximityDistance
    else results1
  let results3 :=
    if methods.contextAnalysis then context_analysis sentences results2
    else results2
  let results4 :=
    if methods.patternMatching then
      pattern_matching o catalog preprocessed_text results3
    else results3
  let results5 :=
    if methods.sentimentAnalysis then sentiment_analysis preprocessed_text results4
    else results4
  let results6 :=
    if methods.nounPhraseAnalysis then
      noun_phrase_analysis o preprocessed_text results5
    else results5
  let results7 :=
    if methods.propagandaTechniqueAnalysis then
      propaganda_technique_analysis o preprocessed_text results6
    else results6
  let results8 :=
    if methods.topicCoherenceAnalysis then
      topic_coherence_analysis o preprocessed_text sentences results7
    else results7
  if methods.rhetoricalDeviceAnalysis then
    rhetorical_device_analysis o preprocessed_text sentences results8
  else results8

/-- The cache-miss body of `TextAnalyzer.analyze_text`: preprocess, filter
the catalog by category, run keyword matching, short-circuit when it is empty
and pattern matching is disabled, otherwise thread the result list through
every enabled stage in the fixed order and finish with the weighted
combiner. -/
def analyze_text_pure (o : NLPOracles) (catalog : List IndicatorDef)
    (text : String) (settings : AnalysisSettings) : Report :=
  let methods := settings.methods
  let thresholds := settings.thresholds
  let category_ids := settings.categories
  let pre := preprocess_text o text
  let preprocessed_text := pre.1
  let sentences := pre.2.1
  let words := pre.2.2
  let filtered_indicators := filteredCatalog catalog category_ids
  let results0 := keyword_matching preprocessed_text sentences
    filtered_indicators thresholds.minKeywordStrength
  if results0 = [] ∧ methods.patternMatching = false then
    { error := none
      total_indicators_found := some 0
      results := []
      analysis_methods := some { keywordMatching := true } }
  else
    let final := weighted_analysis_combination
      (runStages o catalog methods thresholds preprocessed_text sentences
        words results0)
      (usedMethodsOf methods)
    { error := none
      total_indicators_found := some final.length
      results := final
      analysis_methods := some (usedMethodsOf methods) }

/-- `TextAnalyzer.analyze_text`: empty-text error first, then the cache
lookup (keyed by the text only), then the pipeline; a computed report is
stored back into the cache.  `settings = none` models `settings is None`,
resolved to the source's default settings dictionary. -/
def analyze_text (o : NLPOracles) (catalog : List IndicatorDef) (text : String)
    (settings : Option AnalysisSettings) (cache : Cache) : Report × Cache :=
  if text = "" then
    ({ error := some "Empty text provided", results := [] }, cache)
  else
    match cacheGet cache text with
    | some cached_results => (cached_results, cache)
    | none =>
      let s := settings.getD defaultSettings
      let report := analyze_text_pure o catalog text s
      (report, cacheSet cache text report)

/-! ## Concrete fixtures

Oracle instantiations used in concrete runs.  `trivOracles` stands for the
NLTK/`re` collaborators on the inert single-sentence, punctuation-free texts
used below: such a text tokenizes to itself as the only sentence and to its
whitespace-separated words, and none of the embedded regex tables has a match
on those texts. -/

/-- A one-indicator catalog with the single low-strength keyword `guerra`. -/
def guerraDef : IndicatorDef :=
  { id := "militarism"
    name := "Militarismo"
    description := "d"
    keywords := [{ text := "guerra", strength := .low }] }

/-- Trivial tokenizer/regex oracles (see the section comment). -/
def trivOracles : NLPOracles :=
  { sentTokenize := fun t => [t]
    wordTokenize := pySplit
    reFind := fun _ _ _ => [] }

/-- Settings enabling only frequency analysis on top of keyword matching. -/
def freqSettings : AnalysisSettings :=
  { methods := { keywordMatching := true, frequencyAnalysis := true } }

/-- The keyword-matching result list for `"guerra guerra guerra"` against
`guerraDef`. -/
def guerraKwRes : List IndicatorResult :=
  keyword_matching "guerra guerra guerra" ["guerra guerra guerra"] [guerraDef] .low

/-- A catalog entry for `extreme_nationalism`. -/
def natDef : IndicatorDef :=
  { id := "extreme_nationalism"
    name := "Nazionalismo estremo"
    description := "d"
    keywords := [{ text := "superiore", strength := .low }] }

/-- A catalog entry for `hate_speech`. -/
def hateDef : IndicatorDef :=
  { id := "hate_speech"
    name := "Incitamento all\x27odio"
    description := "d"
    keywords := [{ text := "invasione etnica", strength := .high }] }

/-- The first `hate_speech` pattern of `patternTable`. -/
def hateSpeechP1 : String :=
  "\\b(immigrat[io]|stranier[io]|migranti)(?:\\s+\\w+)\x7b0,5\x7d\\s+(invasion[ei]|pericol[io]|minacci[ae]|criminali)\\b"

/-- Oracles reproducing NLTK/`re` behaviour on the text
`"immigrati invasione"`: it is a single sentence of two words, the pattern
`hateSpeechP1` matches the whole text (`immigrati`, zero filler words, a
space, `invasione`), and no other pattern of any embedded table matches it
(each requires a word this text does not contain). -/
def c5Oracles : NLPOracles :=
  { sentTokenize := fun t => [t]
    wordTokenize := pySplit
    reFind := fun p ic t =>
      if p = hateSpeechP1 ∧ ic = false ∧ t = "immigrati invasione" then
        ["immigrati invasione"]
      else [] }

/-- Settings restricting analysis to `extreme_nationalism` with pattern
matching enabled. -/
def c5Settings : AnalysisSettings :=
  { methods := { keywordMatching := true, patternMatching := true }
    categories := ["extreme_nationalism"] }

/-! ## General lemmas -/

theorem strengthVal_le_three (s : Strength) : strengthVal s ≤ 3 := by
  cases s <;> simp [strengthVal]

/-- The common escalation shape `if c1 then high else if c2 then medium else
old` never lowers the strength when the medium branch is reserved for
`old = low`. -/
theorem escalate_mono (c1 c2 : Prop) [Decidable c1] [Decidable c2]
    (old : Strength) (h2 : c2 → old = .low) :
    strengthVal old ≤
      strengthVal (if c1 then .high else if c2 then .medium else old) := by
  split
  · exact strengthVal_le_three old
  · split
    · next h => rw [h2 h]; decide
    · exact le_refl _

/-- Two members of a list with `Nodup` ids and the same id are equal. -/
theorem eq_of_mem_nodup_ids {l : List IndicatorResult}
    (hnd : (l.map (·.indicator_id)).Nodup) {a b : IndicatorResult}
    (ha : a ∈ l) (hb : b ∈ l) (hid : a.indicator_id = b.indicator_id) :
    a = b :=
  List.inj_on_of_nodup_map hnd ha hb hid

/-- The monotone-escalation relation between a stage's input and its output:
any indicator of the output carrying the id of an input indicator has at
least the input's ordinal strength. -/
def MonoEsc (inp out : List IndicatorResult) : Prop :=
  ∀ rIn ∈ inp, ∀ rOut ∈ out, rIn.indicator_id = rOut.indicator_id →
    strengthVal rIn.overall_strength ≤ strengthVal rOut.overall_strength

instance (inp out : List IndicatorResult) : Decidable (MonoEsc inp out) := by
  unfold MonoEsc; infer_instance

theorem monoEsc_self {l : List IndicatorResult}
    (hnd : (l.map (·.indicator_id)).Nodup) : MonoEsc l l := by
  intro rIn hIn rOut hOut hEq
  rw [eq_of_mem_nodup_ids hnd hIn hOut hEq]

theorem monoEsc_of_map {g : IndicatorResult → IndicatorResult}
    (hg : ∀ r, (g r).indicator_id = r.indicator_id ∧
      strengthVal r.overall_strength ≤ strengthVal (g r).overall_strength)
    {l : List IndicatorResult} (hnd : (l.map (·.indicator_id)).Nodup) :
    MonoEsc l (l.map g) := by
  intro rIn hIn rOut hOut hEq
  obtain ⟨r0, hr0, rfl⟩ := List.mem_map.mp hOut
  have h0 : rIn = r0 :=
    eq_of_mem_nodup_ids hnd hIn hr0 (by rw [hEq, (hg r0).1])
  rw [h0]
  exact (hg r0).2

/-! ### Per-stage structural lemmas: id preserved, strength monotone, `text`
key untouched -/

theorem patternEscalate_mono (s : Strength) :
    strengthVal s ≤ strengthVal (patternEscalate s) := by
  cases s <;> simp [patternEscalate, strengthVal]

theorem proximityEnhance_spec (wp : List (String × List Nat)) (maxD : Nat)
    (r : IndicatorResult) :
    (proximityEnhance wp maxD r).indicator_id = r.indicator_id ∧
    strengthVal r.overall_strength ≤
      strengthVal (proximityEnhance wp maxD r).overall_strength ∧
    (proximityEnhance wp maxD r).text = r.text := by
  simp only [proximityEnhance]
  split
  · exact ⟨by trivial, le_refl _, by trivial⟩
  · split
    · exact ⟨by trivial, escalate_mono _ _ _ (fun h => h.2), by trivial⟩
    · exact ⟨by trivial, le_refl _, by trivial⟩

theorem contextEnhance_spec (r : IndicatorResult) :
    (contextEnhance r).indicator_id = r.indicator_id ∧
    strengthVal r.overall_strength ≤
      strengthVal (contextEnhance r).overall_strength ∧
    (contextEnhance r).text = r.text := by
  simp only [contextEnhance]
  split
  · exact ⟨by trivial, escalate_mono _ _ _ (fun h => h.2), by trivial⟩
  · exact ⟨by trivial, le_refl _, by trivial⟩

theorem sentimentEnhance_spec (text : String) (r : IndicatorResult) :
    (sentimentEnhance text r).indicator_id = r.indicator_id ∧
    strengthVal r.overall_strength ≤
      strengthVal (sentimentEnhance text r).overall_strength ∧
    (sentimentEnhance text r).text = r.text := by
  simp only [sentimentEnhance]
  refine ⟨by trivial, ?_, by trivial⟩
  split
  · exact strengthVal_le_three _
  · exact le_refl _

theorem nounPhraseEnhance_spec (o : NLPOracles) (text : String)
    (r : IndicatorResult) :
    (nounPhraseEnhance o text r).indicator_id = r.indicator_id ∧
    strengthVal r.overall_strength ≤
      strengthVal (nounPhraseEnhance o text r).overall_strength ∧
    (nounPhraseEnhance o text r).text = r.text := by
  simp only [nounPhraseEnhance]
  exact ⟨by trivial, escalate_mono _ _ _ (fun h => h.2), by trivial⟩

theorem propagandaEnhance_spec (o : NLPOracles) (text : String)
    (r : IndicatorResult) :
    (propagandaEnhance o text r).indicator_id = r.indicator_id ∧
    strengthVal r.overall_strength ≤
      strengthVal (propagandaEnhance o text r).overall_strength ∧
    (propagandaEnhance o text r).text = r.text := by
  simp only [propagandaEnhance]
  exact ⟨by trivial, escalate_mono _ _ _ (fun h => h.2), by trivial⟩

theorem topicEnhance_spec (o : NLPOracles) (text : String)
    (sentences : List String) (r : IndicatorResult) :
    (topicEnhance o text sentences r).indicator_id = r.indicator_id ∧
    strengthVal r.overall_strength ≤
      strengthVal (topicEnhance o text sentences r).overall_strength ∧
    (topicEnhance o text sentences r).text = r.text := by
  simp only [topicEnhance]
  split
  · split
    · exact ⟨by trivial, escalate_mono _ _ _ (fun h => h.2.2), by trivial⟩
    · exact ⟨by trivial, le_refl _, by trivial⟩
  · exact ⟨by trivial, le_refl _, by trivial⟩

theorem rhetoricalEnhance_spec (o : NLPOracles) (text : String)
    (sentences : List String) (r : IndicatorResult) :
    (rhetoricalEnhance o text sentences r).indicator_id = r.indicator_id ∧
    strengthVal r.overall_strength ≤
      strengthVal (rhetoricalEnhance o text sentences r).overall_strength ∧
    (rhetoricalEnhance o text sentences r).text = r.text := by
  simp only [rhetoricalEnhance]
  exact ⟨by trivial, escalate_mono _ _ _ (fun h => h.2), by trivial⟩

theorem freqEnhance_some_spec {text : String} {tw mo : Nat}
    {r r' : IndicatorResult} (h : freqEnhance text tw mo r = some r') :
    r'.indicator_id = r.indicator_id ∧
    strengthVal r.overall_strength ≤ strengthVal r'.overall_strength ∧
    r'.text = r.text ∧ r'.found_keywords = r.found_keywords := by
  simp only [freqEnhance] at h
  split at h
  · exact absurd h (by simp)
  · rw [Option.some_inj] at h
    subst h
    exact ⟨rfl, escalate_mono _ _ _ (fun hh => hh.2), rfl, rfl⟩

theorem combineEnhance_spec (used : Methods) (r : IndicatorResult) :
    (combineEnhance used r).indicator_id = r.indicator_id ∧
    (combineEnhance used r).text = r.text := by
  simp only [combineEnhance]
  exact ⟨by trivial, by trivial⟩

/-! ### Dict lemmas -/

theorem mem_dictInsert {α : Type} {d : List (String × α)} {k : String} {v : α}
    {p : String × α} (h : p ∈ dictInsert d k v) :
    p = (k, v) ∨ (p ∈ d ∧ p.1 ≠ k) := by
  unfold dictInsert at h
  split at h
  · obtain ⟨q, hq, hmap⟩ := List.mem_map.mp h
    by_cases hk : q.1 = k
    · left; rw [← hmap]; simp [hk]
    · right
      constructor
      · rw [← hmap]
        simpa [hk] using hq
      · rw [← hmap]; simp [hk]
  · next hneg =>
    rcases List.mem_append.mp h with hmem | hmem
    · right
      refine ⟨hmem, fun hpk => ?_⟩
      exact hneg (List.any_eq_true.mpr ⟨p, hmem, by simp [hpk]⟩)
    · left; simpa using hmem

theorem self_mem_dictInsert {α : Type} (d : List (String × α)) (k : String)
    (v : α) : (k, v) ∈ dictInsert d k v := by
  unfold dictInsert
  split
  · next hany =>
    obtain ⟨q, hq, hqk⟩ := List.any_eq_true.mp hany
    refine List.mem_map.mpr ⟨q, hq, ?_⟩
    simp [hqk]
  · simp

theorem keys_cover_dictInsert {α : Type} {d : List (String × α)}
    {j k : String} {v : α} (h : ∃ p ∈ d, p.1 = j) :
    ∃ p ∈ dictInsert d k v, p.1 = j := by
  by_cases hjk : j = k
  · exact ⟨(k, v), self_mem_dictInsert d k v, hjk.symm⟩
  · obtain ⟨p, hp, hpj⟩ := h
    unfold dictInsert
    split
    · refine ⟨p, ?_, hpj⟩
      have hmem : (if p.1 == k then (k, v) else p) ∈
          d.map (fun q => if q.1 == k then (k, v) else q) :=
        List.mem_map_of_mem _ hp
      rwa [if_neg (by simp [hpj, hjk])] at hmem
    · exact ⟨p, List.mem_append_left _ hp, hpj⟩

theorem dictFind_eq_some_mem {α : Type} {d : List (String × α)} {k : String}
    {v : α} (h : dictFind d k = some v) : (k, v) ∈ d := by
  unfold dictFind at h
  cases hf : d.find? (fun p => p.1 == k) with
  | none => rw [hf] at h; simp at h
  | some p =>
    rw [hf] at h
    have hmem := List.mem_of_find?_eq_some hf
    have hkey := List.find?_some hf
    obtain ⟨p1, p2⟩ := p
    simp at hkey h
    rw [← hkey, ← h]
    exact hmem

theorem dictFind_eq_none_keys {α : Type} {d : List (String × α)} {k : String}
    (h : dictFind d k = none) : ∀ p ∈ d, p.1 ≠ k := by
  unfold dictFind at h
  rw [Option.map_eq_none'] at h
  intro p hp hpk
  exact absurd (List.find?_eq_none.mp h p hp) (by simp [hpk])

/-! ### Per-stage monotone escalation -/

theorem monoEsc_frequency (text : String) (words : List String)
    {l : List IndicatorResult} (minOcc : Nat)
    (hnd : (l.map (·.indicator_id)).Nodup) :
    MonoEsc l (frequency_analysis text words l minOcc) := by
  simp only [frequency_analysis]
  split
  · exact monoEsc_self hnd
  · split
    · intro rIn hIn rOut hOut hEq
      obtain ⟨r0, hr0, hf⟩ := List.mem_filterMap.mp hOut
      obtain ⟨hid, hmono, -, -⟩ := freqEnhance_some_spec hf
      have h0 : rIn = r0 := eq_of_mem_nodup_ids hnd hIn hr0 (by rw [hEq, hid])
      rw [h0]; exact hmono
    · exact monoEsc_self hnd

theorem monoEsc_proximity (words : List String)
    {l : List IndicatorResult} (maxD : Nat)
    (hnd : (l.map (·.indicator_id)).Nodup) :
    MonoEsc l (proximity_analysis words l maxD) := by
  simp only [proximity_analysis]
  split
  · exact monoEsc_self hnd
  · exact monoEsc_of_map
      (fun r => ⟨(proximityEnhance_spec _ _ r).1, (proximityEnhance_spec _ _ r).2.1⟩) hnd

theorem monoEsc_context (sentences : List String)
    {l : List IndicatorResult} (hnd : (l.map (·.indicator_id)).Nodup) :
    MonoEsc l (context_analysis sentences l) := by
  simp only [context_analysis]
  split
  · exact monoEsc_self hnd
  · exact monoEsc_of_map
      (fun r => ⟨(contextEnhance_spec r).1, (contextEnhance_spec r).2.1⟩) hnd

theorem monoEsc_sentiment (text : String)
    {l : List IndicatorResult} (hnd : (l.map (·.indicator_id)).Nodup) :
    MonoEsc l (sentiment_analysis text l) :=
  monoEsc_of_map
    (fun r => ⟨(sentimentEnhance_spec text r).1, (sentimentEnhance_spec text r).2.1⟩) hnd

theorem monoEsc_nounPhrase (o : NLPOracles) (text : String)
    {l : List IndicatorResult} (hnd : (l.map (·.indicator_id)).Nodup) :
    MonoEsc l (noun_phrase_analysis o text l) :=
  monoEsc_of_map
    (fun r => ⟨(nounPhraseEnhance_spec o text r).1, (nounPhraseEnhance_spec o text r).2.1⟩) hnd

theorem monoEsc_propaganda (o : NLPOracles) (text : String)
    {l : List IndicatorResult} (hnd : (l.map (·.indicator_id)).Nodup) :
    MonoEsc l (propaganda_technique_analysis o text l) :=
  monoEsc_of_map
    (fun r => ⟨(propagandaEnhance_spec o text r).1, (propagandaEnhance_spec o text r).2.1⟩) hnd

theorem monoEsc_topic (o : NLPOracles) (text : String) (sentences : List String)
    {l : List IndicatorResult} (hnd : (l.map (·.indicator_id)).Nodup) :
    MonoEsc l (topic_coherence_analysis o text sentences l) := by
  simp only [topic_coherence_analysis]
  split
  · exact monoEsc_self hnd
  · exact monoEsc_of_map
      (fun r => ⟨(topicEnhance_spec o text sentences r).1,
        (topicEnhance_spec o text sentences r).2.1⟩) hnd

theorem monoEsc_rhetorical (o : NLPOracles) (text : String)
    (sentences : List String) {l : List IndicatorResult}
    (hnd : (l.map (·.indicator_id)).Nodup) :
    MonoEsc l (rhetorical_device_analysis o text sentences l) := by
  simp only [rhetorical_device_analysis]
  split
  · exact monoEsc_self hnd
  · exact monoEsc_of_map
      (fun r => ⟨(rhetoricalEnhance_spec o text sentences r).1,
        (rhetoricalEnhance_spec o text sentences r).2.1⟩) hnd

/-! ### The pattern-matching dict invariant -/

/-- Invariant threaded through the `patternTable` fold: every stored value
carries its key as id, dominates (in strength) every input indicator with
that id, and the keys cover every input id. -/
def PatInv (l : List IndicatorResult)
    (d : List (String × IndicatorResult)) : Prop :=
  (∀ p ∈ d, p.2.indicator_id = p.1) ∧
  (∀ rIn ∈ l, ∀ p ∈ d, rIn.indicator_id = p.1 →
    strengthVal rIn.overall_strength ≤ strengthVal p.2.overall_strength) ∧
  (∀ rIn ∈ l, ∃ p ∈ d, p.1 = rIn.indicator_id)

theorem buildDict_mem_aux {l : List IndicatorResult}
    {acc : List (String × IndicatorResult)} {p : String × IndicatorResult}
    (hp : p ∈ l.foldl (fun d r => dictInsert d r.indicator_id r) acc) :
    p ∈ acc ∨ ∃ r ∈ l, p = (r.indicator_id, r) := by
  induction l generalizing acc with
  | nil => exact Or.inl hp
  | cons a as ih =>
    rcases ih hp with hacc | ⟨r, hr, rfl⟩
    · rcases mem_dictInsert hacc with h | ⟨h, -⟩
      · exact Or.inr ⟨a, List.mem_cons_self a as, h⟩
      · exact Or.inl h
    · exact Or.inr ⟨r, List.mem_cons_of_mem a hr, rfl⟩

theorem buildDict_keys_aux {l : List IndicatorResult}
    {acc : List (String × IndicatorResult)} {j : String}
    (h : (∃ p ∈ acc, p.1 = j) ∨ ∃ r ∈ l, r.indicator_id = j) :
    ∃ p ∈ l.foldl (fun d r => dictInsert d r.indicator_id r) acc, p.1 = j := by
  induction l generalizing acc with
  | nil =>
    rcases h with h | ⟨r, hr, -⟩
    · exact h
    · exact absurd hr (List.not_mem_nil r)
  | cons a as ih =>
    rcases h with h | ⟨r, hr, hrj⟩
    · exact ih (Or.inl (keys_cover_dictInsert h))
    · rcases List.mem_cons.mp hr with rfl | hr'
      · exact ih (Or.inl ⟨(r.indicator_id, r),
          self_mem_dictInsert _ _ _, hrj⟩)
      · exact ih (Or.inr ⟨r, hr', hrj⟩)

theorem patInv_buildDict {l : List IndicatorResult}
    (hnd : (l.map (·.indicator_id)).Nodup) : PatInv l (buildDict l) := by
  refine ⟨?_, ?_, ?_⟩
  · intro p hp
    rcases buildDict_mem_aux hp with h | ⟨r, -, rfl⟩
    · exact absurd h (List.not_mem_nil p)
    · rfl
  · intro rIn hIn p hp hid
    rcases buildDict_mem_aux hp with h | ⟨r, hr, rfl⟩
    · exact absurd h (List.not_mem_nil p)
    · rw [eq_of_mem_nodup_ids hnd hIn hr hid]
  · intro rIn hIn
    exact buildDict_keys_aux (Or.inr ⟨rIn, hIn, rfl⟩)

theorem patInv_patStep (o : NLPOracles) (catalogIndicators : List IndicatorDef)
    (text : String) {l : List IndicatorResult}
    {d : List (String × IndicatorResult)} (hinv : PatInv l d)
    (cat : String × List String) :
    PatInv l (patStep o catalogIndicators text d cat) := by
  obtain ⟨h1, h2, h3⟩ := hinv
  simp only [patStep]
  split
  case isFalse => exact ⟨h1, h2, h3⟩
  case isTrue =>
    cases hdf : dictFind d cat.1 with
    | some indicator =>
      have hmem : (cat.1, indicator) ∈ d := dictFind_eq_some_mem hdf
      have hidv : indicator.indicator_id = cat.1 := h1 _ hmem
      refine ⟨?_, ?_, ?_⟩
      · intro p hp
        rcases mem_dictInsert hp with rfl | ⟨hp', -⟩
        · exact hidv
        · exact h1 _ hp'
      · intro rIn hIn p hp hid
        rcases mem_dictInsert hp with rfl | ⟨hp', -⟩
        · exact le_trans (h2 rIn hIn (cat.1, indicator) hmem hid)
            (patternEscalate_mono _)
        · exact h2 rIn hIn p hp' hid
      · intro rIn hIn
        exact keys_cover_dictInsert (h3 rIn hIn)
    | none =>
      cases hfind : catalogIndicators.find? (fun ind => ind.id == cat.1) with
      | none => exact ⟨h1, h2, h3⟩
      | some indicator_def =>
        refine ⟨?_, ?_, ?_⟩
        · intro p hp
          rcases mem_dictInsert hp with rfl | ⟨hp', -⟩
          · rfl
          · exact h1 _ hp'
        · intro rIn hIn p hp hid
          rcases mem_dictInsert hp with rfl | ⟨hp', -⟩
          · obtain ⟨q, hq, hqid⟩ := h3 rIn hIn
            exact absurd (hqid.trans hid) (dictFind_eq_none_keys hdf q hq)
          · exact h2 rIn hIn p hp' hid
        · intro rIn hIn
          exact keys_cover_dictInsert (h3 rIn hIn)

theorem monoEsc_pattern (o : NLPOracles) (catalogIndicators : List IndicatorDef)
    (text : String) {l : List IndicatorResult}
    (hnd : (l.map (·.indicator_id)).Nodup) :
    MonoEsc l (pattern_matching o catalogIndicators text l) := by
  have hinv : PatInv l (patternTable.foldl (patStep o catalogIndicators text)
      (buildDict l)) :=
    List.foldlRecOn patternTable (patStep o catalogIndicators text)
      (buildDict l) (patInv_buildDict hnd)
      (fun d hd cat _ => patInv_patStep o catalogIndicators text hd cat)
  intro rIn hIn rOut hOut hEq
  simp only [pattern_matching] at hOut
  obtain ⟨p, hp, rfl⟩ := List.mem_map.mp hOut
  exact hinv.2.1 rIn hIn p hp (hEq.trans (hinv.1 p hp))

/-! ## Claim theorems -/

/-- **C3** — monotonic escalation invariant: for every enrichment stage from
`FrequencyAnalysis` through `RhetoricalDeviceAnalysis` (every stage except
the final weighted combiner), and for every indicator present in both the
stage's input and output lists (paired by `indicator_id`; the hypothesis
makes the pairing unambiguous, and pipeline-produced lists satisfy it), the
indicator's `overall_strength` ordinal value (low = 1, medium = 2, high = 3)
in the output is at least its value in the input. -/
theorem C3_monotonic_escalation (o : NLPOracles)
    (catalogIndicators : List IndicatorDef) (text : String)
    (words sentences : List String) (minOcc maxD : Nat)
    (l : List IndicatorResult) (hnd : (l.map (·.indicator_id)).Nodup) :
    MonoEsc l (frequency_analysis text words l minOcc) ∧
    MonoEsc l (proximity_analysis words l maxD) ∧
    MonoEsc l (context_analysis sentences l) ∧
    MonoEsc l (pattern_matching o catalogIndicators text l) ∧
    MonoEsc l (sentiment_analysis text l) ∧
    MonoEsc l (noun_phrase_analysis o text l) ∧
    MonoEsc l (propaganda_technique_analysis o text l) ∧
    MonoEsc l (topic_coherence_analysis o text sentences l) ∧
    MonoEsc l (rhetorical_device_analysis o text sentences l) :=
  ⟨monoEsc_frequency text words minOcc hnd,
   monoEsc_proximity words maxD hnd,
   monoEsc_context sentences hnd,
   monoEsc_pattern o catalogIndicators text hnd,
   monoEsc_sentiment text hnd,
   monoEsc_nounPhrase o text hnd,
   monoEsc_propaganda o text hnd,
   monoEsc_topic o text sentences hnd,
   monoEsc_rhetorical o text sentences hnd⟩

/-- Witness for C3 at a concrete pipeline state: the keyword-matching output
for `"guerra guerra guerra"`. -/
theorem C3_monotonic_escalation_witness :
    MonoEsc guerraKwRes (frequency_analysis "guerra guerra guerra"
      ["guerra", "guerra", "guerra"] guerraKwRes 1) ∧
    MonoEsc guerraKwRes (proximity_analysis ["guerra", "guerra", "guerra"]
      guerraKwRes 20) ∧
    MonoEsc guerraKwRes (context_analysis ["guerra guerra guerra"] guerraKwRes) ∧
    MonoEsc guerraKwRes (pattern_matching trivOracles [guerraDef]
      "guerra guerra guerra" guerraKwRes) ∧
    MonoEsc guerraKwRes (sentiment_analysis "guerra guerra guerra" guerraKwRes) ∧
    MonoEsc guerraKwRes (noun_phrase_analysis trivOracles "guerra guerra guerra"
      guerraKwRes) ∧
    MonoEsc guerraKwRes (propaganda_technique_analysis trivOracles
      "guerra guerra guerra" guerraKwRes) ∧
    MonoEsc guerraKwRes (topic_coherence_analysis trivOracles
      "guerra guerra guerra" ["guerra guerra guerra"] guerraKwRes) ∧
    MonoEsc guerraKwRes (rhetorical_device_analysis trivOracles
      "guerra guerra guerra" ["guerra guerra guerra"] guerraKwRes) :=
  C3_monotonic_escalation trivOracles [guerraDef] "guerra guerra guerra"
    ["guerra", "guerra", "guerra"] ["guerra guerra guerra"] 1 20 guerraKwRes
    (by decide)

/-- **C9** — empty-text error: on the empty input string `analyze_text`
returns the structured error result `{"error": "Empty text provided",
"results": []}` (never an exception), identically for every oracle, catalog,
settings and cache and leaving the cache untouched — i.e. before
tokenization or any analysis stage could run or observe anything. -/
theorem C9_empty_text_error (o : NLPOracles) (catalog : List IndicatorDef)
    (settings : Option AnalysisSettings) (cache : Cache) :
    analyze_text o catalog "" settings cache =
      ({ error := some "Empty text provided", results := [] }, cache) := rfl

/-- Well-formedness of the analysis cache: every stored report satisfies the
count invariant.  (The cache is populated only with the analyzer's own
reports; its on-disk pickle initialisation is outside the model.) -/
def CacheWF (cache : Cache) : Prop :=
  ∀ p ∈ cache, p.2.total_indicators_found = some p.2.results.length

/-- The report computed on a cache miss always satisfies the count
invariant. -/
theorem analyze_text_pure_count (o : NLPOracles) (catalog : List IndicatorDef)
    (text : String) (s : AnalysisSettings) :
    (analyze_text_pure o catalog text s).total_indicators_found =
      some (analyze_text_pure o catalog text s).results.length := by
  unfold analyze_text_pure
  dsimp only
  split <;> rfl

/-- **C8** — counterexample to the count invariant as stated "for every input
text": at the empty text the returned error dictionary carries no
`total_indicators_found` key at all (while `results == []`), so
`total_indicators_found == len(results)` does not hold there. -/
theorem C8_count_invariant_counterexample :
    (analyze_text trivOracles [guerraDef] "" none []).1.total_indicators_found
        = none ∧
    (analyze_text trivOracles [guerraDef] "" none []).1.results = [] ∧
    ¬ (analyze_text trivOracles [guerraDef] "" none []).1.total_indicators_found
        = some (analyze_text trivOracles [guerraDef] "" none []).1.results.length := by
  exact ⟨rfl, rfl, fun h => Option.noConfusion h⟩

/-- **C8** (amended) — count invariant: for every *non-empty* input text and
every settings, given a cache whose entries satisfy the invariant (the code
only ever stores its own reports), the report returned by `analyze_text`
satisfies `total_indicators_found == len(results)`, and the updated cache
still satisfies the invariant.  (The empty-text error report instead has
`results == []` and no `total_indicators_found` field.) -/
theorem C8_count_invariant (o : NLPOracles) (catalog : List IndicatorDef)
    (text : String) (settings : Option AnalysisSettings) (cache : Cache)
    (htext : text ≠ "") (hwf : CacheWF cache) :
    (analyze_text o catalog text settings cache).1.total_indicators_found =
      some (analyze_text o catalog text settings cache).1.results.length ∧
    CacheWF (analyze_text o catalog text settings cache).2 := by
  unfold analyze_text
  rw [if_neg htext]
  cases hc : cacheGet cache text with
  | some rep =>
    exact ⟨hwf _ (dictFind_eq_some_mem hc), hwf⟩
  | none =>
    refine ⟨analyze_text_pure_count o catalog text _, ?_⟩
    intro p hp
    rcases mem_dictInsert hp with rfl | ⟨hp', -⟩
    · exact analyze_text_pure_count o catalog text _
    · exact hwf _ hp'

/-- Witness for C8 at a concrete input: one analysis of
`"guerra guerra guerra"` on an empty cache. -/
theorem C8_count_invariant_witness :
    (analyze_text trivOracles [guerraDef] "guerra guerra guerra" none
        []).1.total_indicators_found =
      some (analyze_text trivOracles [guerraDef] "guerra guerra guerra" none
        []).1.results.length ∧
    CacheWF (analyze_text trivOracles [guerraDef] "guerra guerra guerra" none []).2 :=
  C8_count_invariant trivOracles [guerraDef] "guerra guerra guerra" none []
    (by decide) (by intro p hp; exact absurd hp (List.not_mem_nil p))

/-- **C7** — early-empty fast path: for every non-empty text (not already in
the cache) and every settings under which keyword matching finds zero
indicators and `patternMatching` is disabled, `analyze_text` returns the
empty report — `total_indicators_found == 0`, `results == []` and
`analysis_methods` containing only `keywordMatching` — so no later stage and
no combiner contributes anything to it. -/
theorem C7_early_empty_fast_path (o : NLPOracles) (catalog : List IndicatorDef)
    (text : String) (settings : AnalysisSettings) (cache : Cache)
    (htext : text ≠ "") (hmiss : cacheGet cache text = none)
    (hkw : keyword_matching (preprocess_text o text).1
        (preprocess_text o text).2.1
        (filteredCatalog catalog settings.categories)
        settings.thresholds.minKeywordStrength = [])
    (hpat : settings.methods.patternMatching = false) :
    analyze_text o catalog text (some settings) cache =
      ({ error := none
         total_indicators_found := some 0
         results := []
         analysis_methods := some { keywordMatching := true } },
       cacheSet cache text
         { error := none
           total_indicators_found := some 0
           results := []
           analysis_methods := some { keywordMatching := true } }) := by
  unfold analyze_text
  rw [if_neg htext, hmiss]
  unfold analyze_text_pure
  dsimp only [Option.getD_some]
  rw [hkw, hpat]
  simp

/-- Witness for C7: the one-indicator catalog has no keyword occurring in
`"nessun riscontro"`. -/
theorem C7_early_empty_fast_path_witness :
    analyze_text trivOracles [guerraDef] "nessun riscontro" (some {}) [] =
      ({ error := none
         total_indicators_found := some 0
         results := []
         analysis_methods := some { keywordMatching := true } },
       cacheSet [] "nessun riscontro"
         { error := none
           total_indicators_found := some 0
           results := []
           analysis_methods := some { keywordMatching := true } }) :=
  C7_early_empty_fast_path trivOracles [guerraDef] "nessun riscontro" {} []
    (by decide) rfl (by decide) rfl

unseal Rat.mul Rat.inv Rat.add Rat.ofScientific in
/-- **C1** is violated by the code: `analyze_text` consults a cache keyed by
the text alone (`ContentCache.get_text_analysis` hashes only the text), so a
second call on the same text with *different* settings returns the first
call's report verbatim.  Concretely: analysing `"guerra guerra guerra"` with
frequency analysis enabled and then re-analysing it with the default
settings returns the frequency-enabled report — bit-different (already in
its `analysis_methods`) from what the default settings produce on a fresh
cache.  (`analyze_input` even guards its own cache use with
`settings is None`, a guard this internal lookup bypasses.)
(The preceding `unseal` restores kernel reducibility of the `Rat` arithmetic
used by the combiner so that `decide` can evaluate the run.) -/
theorem C1_cache_settings_interference :
    ((analyze_text trivOracles [guerraDef] "guerra guerra guerra" none
        (analyze_text trivOracles [guerraDef] "guerra guerra guerra"
          (some freqSettings) []).2).1 =
      (analyze_text trivOracles [guerraDef] "guerra guerra guerra"
        (some freqSettings) []).1) ∧
    ((analyze_text trivOracles [guerraDef] "guerra guerra guerra" none
        (analyze_text trivOracles [guerraDef] "guerra guerra guerra"
          (some freqSettings) []).2).1 ≠
      (analyze_text trivOracles [guerraDef] "guerra guerra guerra" none []).1) ∧
    ((analyze_text trivOracles [guerraDef] "guerra guerra guerra"
        (some freqSettings) []).1.analysis_methods =
      some { keywordMatching := true, frequencyAnalysis := true }) ∧
    ((analyze_text trivOracles [guerraDef] "guerra guerra guerra"
        none []).1.analysis_methods =
      some { keywordMatching := true }) := by
  decide

/-! ### Frequency-stage fold lemmas (for C6) -/

theorem freqCounts_mem {text : String} {mo : Nat} {ks : List String}
    {acc : List (String × Nat)} {p : String × Nat}
    (hp : p ∈ ks.foldl (freqCountStep text mo) acc) :
    p ∈ acc ∨ (p.1 ∈ ks ∧ p.2 = wbCount p.1 text ∧ mo ≤ p.2) := by
  induction ks generalizing acc with
  | nil => exact Or.inl hp
  | cons a as ih =>
    rcases ih hp with hacc | ⟨h1, h2, h3⟩
    · simp only [freqCountStep] at hacc
      split at hacc
      · rcases mem_dictInsert hacc with rfl | ⟨h, -⟩
        · next hc => exact Or.inr ⟨List.mem_cons_self a as, rfl, hc⟩
        · exact Or.inl h
      · exact Or.inl hacc
    · exact Or.inr ⟨List.mem_cons_of_mem a h1, h2, h3⟩

theorem freqCounts_keys {text : String} {mo : Nat} {ks : List String}
    {acc : List (String × Nat)} {kw : String}
    (h : (∃ c, (kw, c) ∈ acc) ∨ (kw ∈ ks ∧ mo ≤ wbCount kw text)) :
    ∃ c, (kw, c) ∈ ks.foldl (freqCountStep text mo) acc := by
  induction ks generalizing acc with
  | nil =>
    rcases h with h | ⟨h1, -⟩
    · exact h
    · exact absurd h1 (List.not_mem_nil kw)
  | cons a as ih =>
    rcases h with ⟨c, hc⟩ | ⟨h1, h2⟩
    · refine ih (Or.inl ?_)
      simp only [freqCountStep]
      split
      · obtain ⟨p, hp, hpk⟩ :=
          @keys_cover_dictInsert Nat acc kw a (wbCount a text) ⟨(kw, c), hc, rfl⟩
        refine ⟨p.2, ?_⟩
        have hpk' : p.1 = kw := hpk
        rw [← hpk']
        exact hp
      · exact ⟨c, hc⟩
    · rcases List.mem_cons.mp h1 with rfl | h1'
      · refine ih (Or.inl ?_)
        simp only [freqCountStep]
        rw [if_pos h2]
        exact ⟨wbCount kw text, self_mem_dictInsert _ _ _⟩
      · exact ih (Or.inr ⟨h1', h2⟩)

theorem freqCounts_id {text : String} {mo : Nat} (ks : List String) :
    ∀ acc : List (String × Nat), (∀ kw ∈ ks, wbCount kw text < mo) →
      ks.foldl (freqCountStep text mo) acc = acc := by
  induction ks with
  | nil => intro acc _; rfl
  | cons a as ih =>
    intro acc h
    rw [List.foldl_cons]
    have hstep : freqCountStep text mo acc a = acc := by
      simp only [freqCountStep]
      rw [if_neg (by have := h a (List.mem_cons_self a as); omega)]
    rw [hstep]
    exact ih acc fun kw hkw => h kw (List.mem_cons_of_mem a hkw)

theorem freqCounts_nil {text : String} {mo : Nat} {ks : List String}
    (h : ∀ kw ∈ ks, wbCount kw text < mo) :
    ks.foldl (freqCountStep text mo) [] = [] :=
  freqCounts_id ks [] h

theorem freqEnhance_none_iff {text : String} {tw mo : Nat}
    {r : IndicatorResult} :
    freqEnhance text tw mo r = none ↔
      ∀ kw ∈ r.found_keywords, wbCount kw.text text < mo := by
  constructor
  · intro h kw hkw
    by_contra hge
    simp only [freqEnhance] at h
    split at h
    · next hnil =>
      obtain ⟨c, hc⟩ := @freqCounts_keys text mo
        (r.found_keywords.map (fun k => k.text)) [] kw.text
        (Or.inr ⟨List.mem_map_of_mem _ hkw, by omega⟩)
      rw [hnil] at hc
      exact absurd hc (List.not_mem_nil _)
    · exact Option.noConfusion h
  · intro h
    simp only [freqEnhance]
    rw [if_pos]
    exact freqCounts_nil fun kwt hkwt => by
      obtain ⟨kw, hkw, rfl⟩ := List.mem_map.mp hkwt
      exact h kw hkw

theorem freqEnhance_some_counts {text : String} {tw mo : Nat}
    {r r' : IndicatorResult} (h : freqEnhance text tw mo r = some r') :
    ∃ fd, r'.frequency_data = some fd ∧
      fd.keyword_counts =
        (r.found_keywords.map (·.text)).foldl (freqCountStep text mo) [] ∧
      r'.found_keywords = r.found_keywords := by
  simp only [freqEnhance] at h
  split at h
  · exact Option.noConfusion h
  · rw [Option.some_inj] at h
    subst h
    exact ⟨_, rfl, rfl, rfl⟩

unseal Rat.mul Rat.inv Rat.add Rat.ofScientific in
/-- **C6** — frequency threshold and fallback: `_frequency_analysis` (1)
returns the prior stage's list unmodified whenever every found keyword of
every indicator falls below `minOccurrences`; (2) inside every kept
indicator, `keyword_counts` contains exactly the found keywords whose
word-boundary count clears the threshold, with those counts; (3) when some
indicator clears the threshold, every indicator none of whose keywords
clears it is dropped; and concretely, with keyword `guerra` in
`"guerra guerra guerra"`, `minOccurrences = 3` keeps the indicator (counts
`{guerra: 3}`, density 100) while `minOccurrences = 4` yields the
pre-frequency result list unchanged.  (The preceding `unseal` restores
kernel reducibility of the `Rat` density arithmetic for `decide`.) -/
theorem C6_frequency_threshold_and_fallback :
    (∀ (text : String) (words : List String) (res : List IndicatorResult)
        (minOcc : Nat),
      (∀ r ∈ res, ∀ kw ∈ r.found_keywords, wbCount kw.text text < minOcc) →
      frequency_analysis text words res minOcc = res) ∧
    (∀ (text : String) (words : List String) (res : List IndicatorResult)
        (minOcc : Nat),
      (∀ r ∈ res, r.frequency_data = none) →
      ∀ r' ∈ frequency_analysis text words res minOcc,
        ∀ fd, r'.frequency_data = some fd →
        ∀ kw c, (kw, c) ∈ fd.keyword_counts ↔
          (kw ∈ r'.found_keywords.map (·.text) ∧ c = wbCount kw text ∧
            minOcc ≤ c)) ∧
    (∀ (text : String) (words : List String) (res : List IndicatorResult)
        (minOcc : Nat),
      words ≠ [] → (res.map (·.indicator_id)).Nodup →
      (∃ r0 ∈ res, ∃ kw0 ∈ r0.found_keywords, minOcc ≤ wbCount kw0.text text) →
      ∀ r ∈ res, (∀ kw ∈ r.found_keywords, wbCount kw.text text < minOcc) →
        ∀ r' ∈ frequency_analysis text words res minOcc,
          r'.indicator_id ≠ r.indicator_id) ∧
    ((frequency_analysis "guerra guerra guerra" ["guerra", "guerra", "guerra"]
        guerraKwRes 3).map (fun r => (r.indicator_id, r.frequency_data)) =
      [("militarism",
        some { keyword_counts := [("guerra", 3)]
               total_occurrences := 3
               density := 100 })]) ∧
    (frequency_analysis "guerra guerra guerra" ["guerra", "guerra", "guerra"]
        guerraKwRes 4 = guerraKwRes) := by
  refine ⟨?_, ?_, ?_, by decide, by decide⟩
  · intro text words res minOcc h
    simp only [frequency_analysis]
    split
    · rfl
    · have hnil : res.filterMap (freqEnhance text words.length minOcc) = [] := by
        rw [List.filterMap_eq_nil_iff]
        intro r hr
        exact freqEnhance_none_iff.mpr (h r hr)
      rw [hnil]
      simp
  · intro text words res minOcc hnone r' hr' fd hfd kw c
    simp only [frequency_analysis] at hr'
    split at hr'
    · rw [hnone r' hr'] at hfd
      exact Option.noConfusion hfd
    · split at hr'
      · obtain ⟨r0, hr0, hsome⟩ := List.mem_filterMap.mp hr'
        obtain ⟨fd', hfd', hcounts, hfks⟩ := freqEnhance_some_counts hsome
        rw [hfd'] at hfd
        rw [Option.some_inj] at hfd
        subst hfd
        rw [hcounts, hfks]
        constructor
        · intro hmem
          rcases freqCounts_mem hmem with habs | ⟨h1, h2, h3⟩
          · exact absurd habs (List.not_mem_nil _)
          · exact ⟨h1, h2, by omega⟩
        · rintro ⟨h1, rfl, h3⟩
          obtain ⟨c', hc'⟩ := @freqCounts_keys text minOcc
            (r0.found_keywords.map (fun k => k.text)) [] kw
            (Or.inr ⟨h1, h3⟩)
          rcases freqCounts_mem hc' with habs | ⟨-, h2', -⟩
          · exact absurd habs (List.not_mem_nil _)
          · rwa [← h2']
      · rw [hnone r' hr'] at hfd
        exact Option.noConfusion hfd
  · intro text words res minOcc hw hnd hex r hr hbelow r' hr' hid
    simp only [frequency_analysis] at hr'
    split at hr'
    · next h0 => exact absurd (List.length_eq_zero.mp h0) hw
    · split at hr'
      · obtain ⟨r0, hr0, hsome⟩ := List.mem_filterMap.mp hr'
        obtain ⟨hid0, -, -, -⟩ := freqEnhance_some_spec hsome
        have : r0 = r :=
          eq_of_mem_nodup_ids hnd hr0 hr (by rw [← hid0, hid])
        subst this
        rw [freqEnhance_none_iff.mpr hbelow] at hsome
        exact Option.noConfusion hsome
      · next hne =>
        obtain ⟨r0, hr0, kw0, hkw0, hge⟩ := hex
        have hn0 : freqEnhance text words.length minOcc r0 ≠ none := by
          rw [Ne, freqEnhance_none_iff]
          intro hall
          exact absurd hge (by have := hall kw0 hkw0; omega)
        obtain ⟨y, hy⟩ := Option.ne_none_iff_exists'.mp hn0
        have hymem := List.mem_filterMap.mpr ⟨r0, hr0, hy⟩
        have heq : res.filterMap (freqEnhance text words.length minOcc) = [] := by
          by_contra hc
          exact hne hc
        rw [heq] at hymem
        exact absurd hymem (List.not_mem_nil y)

/-- Witness for C6: the fallback conjunct applied at the concrete
`minOccurrences = 4` scenario. -/
theorem C6_frequency_threshold_and_fallback_witness :
    frequency_analysis "guerra guerra guerra" ["guerra", "guerra", "guerra"]
      guerraKwRes 4 = guerraKwRes :=
  C6_frequency_threshold_and_fallback.1 "guerra guerra guerra"
    ["guerra", "guerra", "guerra"] guerraKwRes 4 (by decide)

/-! ### Weight-sum lemmas (for C2) -/

theorem map_sum_if_append (b : Bool) (x : String) (l : List String)
    (f : String → ℚ) :
    (((if b = true then [x] else []) ++ l).map f).sum =
      (if b = true then f x else 0) + (l.map f).sum := by
  cases b <;> simp

theorem map_sum_if_single (b : Bool) (x : String) (f : String → ℚ) :
    ((if b = true then [x] else []).map f).sum = (if b = true then f x else 0) := by
  cases b <;> simp

theorem weightOf_keywordMatching : weightOf "keywordMatching" = 1.0 := rfl
theorem weightOf_frequencyAnalysis : weightOf "frequencyAnalysis" = 0.8 := rfl
theorem weightOf_proximityAnalysis : weightOf "proximityAnalysis" = 0.7 := rfl
theorem weightOf_contextAnalysis : weightOf "contextAnalysis" = 0.6 := rfl
theorem weightOf_patternMatching : weightOf "patternMatching" = 0.9 := rfl
theorem weightOf_sentimentAnalysis : weightOf "sentimentAnalysis" = 0.4 := rfl
theorem weightOf_nounPhraseAnalysis : weightOf "nounPhraseAnalysis" = 0.7 := rfl
theorem weightOf_propagandaTechniqueAnalysis :
    weightOf "propagandaTechniqueAnalysis" = 0.9 := rfl
theorem weightOf_topicCoherenceAnalysis :
    weightOf "topicCoherenceAnalysis" = 0.8 := rfl
theorem weightOf_rhetoricalDeviceAnalysis :
    weightOf "rhetoricalDeviceAnalysis" = 0.8 := rfl

theorem enabledWeightSum_expand (u : Methods) :
    enabledWeightSum u =
      (if u.keywordMatching = true then (1.0 : ℚ) else 0) +
      (if u.frequencyAnalysis = true then (0.8 : ℚ) else 0) +
      (if u.proximityAnalysis = true then (0.7 : ℚ) else 0) +
      (if u.contextAnalysis = true then (0.6 : ℚ) else 0) +
      (if u.patternMatching = true then (0.9 : ℚ) else 0) +
      (if u.sentimentAnalysis = true then (0.4 : ℚ) else 0) +
      (if u.nounPhraseAnalysis = true then (0.7 : ℚ) else 0) +
      (if u.propagandaTechniqueAnalysis = true then (0.9 : ℚ) else 0) +
      (if u.topicCoherenceAnalysis = true then (0.8 : ℚ) else 0) +
      (if u.rhetoricalDeviceAnalysis = true then (0.8 : ℚ) else 0) := by
  simp only [enabledWeightSum, usedMethodNames, List.append_assoc,
    map_sum_if_append, map_sum_if_single, List.map_nil, List.sum_nil, add_zero,
    weightOf_keywordMatching, weightOf_frequencyAnalysis,
    weightOf_proximityAnalysis, weightOf_contextAnalysis,
    weightOf_patternMatching, weightOf_sentimentAnalysis,
    weightOf_nounPhraseAnalysis, weightOf_propagandaTechniqueAnalysis,
    weightOf_topicCoherenceAnalysis, weightOf_rhetoricalDeviceAnalysis]
  ring

theorem one_le_enabledWeightSum (u : Methods)
    (hkw : u.keywordMatching = true) : 1 ≤ enabledWeightSum u := by
  rw [enabledWeightSum_expand, hkw]
  have hterm : ∀ (b : Bool) (q : ℚ), 0 ≤ q → 0 ≤ (if b = true then q else 0) := by
    intro b q hq
    split <;> simp [hq]
  simp only [if_pos]
  have h1 : (1.0 : ℚ) = 1 := by norm_num
  rw [h1]
  have := hterm u.frequencyAnalysis 0.8 (by norm_num)
  have := hterm u.proximityAnalysis 0.7 (by norm_num)
  have := hterm u.contextAnalysis 0.6 (by norm_num)
  have := hterm u.patternMatching 0.9 (by norm_num)
  have := hterm u.sentimentAnalysis 0.4 (by norm_num)
  have := hterm u.nounPhraseAnalysis 0.7 (by norm_num)
  have := hterm u.propagandaTechniqueAnalysis 0.9 (by norm_num)
  have := hterm u.topicCoherenceAnalysis 0.8 (by norm_num)
  have := hterm u.rhetoricalDeviceAnalysis 0.8 (by norm_num)
  linarith

/-- **C2** — weighted combiner: for every indicator in a non-empty result
list (with `keywordMatching` among the executed methods, as the orchestrator
guarantees), the combiner sets `combined_analysis.score` to the sum of the
contributing stages' weighted sub-scores (its `evidence_factors`
contributions) divided by the sum of the weights of *all enabled* stages,
sets `combined_analysis.strength` to high iff that score is ≥ 2.5, medium
iff ≥ 1.5, else low, and overwrites the indicator's `overall_strength` with
that recomputed strength, whatever earlier stages had accumulated there. -/
theorem C2_weighted_combiner (results : List IndicatorResult)
    (used_methods : Methods) (hkw : used_methods.keywordMatching = true) :
    ∀ r' ∈ weighted_analysis_combination results used_methods,
      ∃ ca, r'.combined_analysis = some ca ∧
        ca.score =
          (ca.evidence_factors.map (·.contribution)).sum /
            ((if used_methods.keywordMatching = true then (1.0 : ℚ) else 0) +
             (if used_methods.frequencyAnalysis = true then (0.8 : ℚ) else 0) +
             (if used_methods.proximityAnalysis = true then (0.7 : ℚ) else 0) +
             (if used_methods.contextAnalysis = true then (0.6 : ℚ) else 0) +
             (if used_methods.patternMatching = true then (0.9 : ℚ) else 0) +
             (if used_methods.sentimentAnalysis = true then (0.4 : ℚ) else 0) +
             (if used_methods.nounPhraseAnalysis = true then (0.7 : ℚ) else 0) +
             (if used_methods.propagandaTechniqueAnalysis = true then (0.9 : ℚ) else 0) +
             (if used_methods.topicCoherenceAnalysis = true then (0.8 : ℚ) else 0) +
             (if used_methods.rhetoricalDeviceAnalysis = true then (0.8 : ℚ) else 0)) ∧
        ca.strength = (if (2.5 : ℚ) ≤ ca.score then Strength.high
          else if (1.5 : ℚ) ≤ ca.score then Strength.medium
          else Strength.low) ∧
        r'.overall_strength = ca.strength := by
  have hmax : max 1 (enabledWeightSum used_methods) =
      enabledWeightSum used_methods :=
    max_eq_right (one_le_enabledWeightSum used_methods hkw)
  intro r' hr'
  simp only [weighted_analysis_combination] at hr'
  split at hr'
  · next h => rw [h] at hr'; exact absurd hr' (List.not_mem_nil r')
  · obtain ⟨r0, hr0, rfl⟩ := List.mem_map.mp hr'
    simp only [combineEnhance]
    refine ⟨_, rfl, ?_, rfl, rfl⟩
    rw [hmax, enabledWeightSum_expand]

/-! ### Keyword-matching structural lemmas (for C4, C5, C10) -/

theorem addContexts_aux (kw : String) (ss : List String) :
    ∀ acc : List String,
      (acc.Nodup → (addContexts kw ss acc).Nodup) ∧
      (∀ c ∈ addContexts kw ss acc,
        c ∈ acc ∨ ∃ s ∈ ss, pyContains kw s = true ∧ c = highlightKw kw s) := by
  induction ss with
  | nil => exact fun acc => ⟨id, fun c hc => Or.inl hc⟩
  | cons s rest ih =>
    intro acc
    have hstep : addContexts kw (s :: rest) acc =
        addContexts kw rest
          (if pyContains kw s = true then
            (if acc.contains (highlightKw kw s) = true then acc
             else acc ++ [highlightKw kw s])
           else acc) := rfl
    constructor
    · intro hnd
      rw [hstep]
      apply (ih _).1
      split
      · split
        · exact hnd
        · next hnc => simp [List.nodup_append, hnd, by simpa using hnc]
      · exact hnd
    · intro c hc
      rw [hstep] at hc
      rcases (ih _).2 c hc with hacc | ⟨s', hs', h1, h2⟩
      · split at hacc
        · split at hacc
          · exact Or.inl hacc
          · rcases List.mem_append.mp hacc with h | h
            · exact Or.inl h
            · next hcont _ =>
              exact Or.inr ⟨s, List.mem_cons_self s rest, hcont, by simpa using h⟩
        · exact Or.inl hacc
      · exact Or.inr ⟨s', List.mem_cons_of_mem s hs', h1, h2⟩

/-- Invariant of the per-indicator keyword loop of `_keyword_matching`. -/
def KwInv (sentences : List String) (st : KwState) : Prop :=
  st.found_context.Nodup ∧
  ∀ c ∈ st.found_context, ∃ kw ∈ st.found_keywords, ∃ s ∈ sentences,
    pyContains kw.text s = true ∧ c = highlightKw kw.text s

theorem kwInv_step (text : String) (sentences : List String) (minVal : Nat)
    {st : KwState} (h : KwInv sentences st) (kwInfo : KeywordInfo) :
    KwInv sentences (kwStep text sentences minVal st kwInfo) := by
  obtain ⟨hnd, hmem⟩ := h
  simp only [kwStep]
  split
  · exact ⟨hnd, hmem⟩
  · split
    · refine ⟨(addContexts_aux _ _ _).1 hnd, ?_⟩
      intro c hc
      rcases (addContexts_aux _ _ _).2 c hc with hacc | ⟨s, hs, h1, h2⟩
      · obtain ⟨kw, hkw, s, hs, h1, h2⟩ := hmem c hacc
        exact ⟨kw, List.mem_append_left _ hkw, s, hs, h1, h2⟩
      · exact ⟨{ text := pyLower kwInfo.text, strength := kwInfo.strength },
          List.mem_append_right _ (List.mem_singleton_self _), s, hs, h1, h2⟩
    · exact ⟨hnd, hmem⟩

theorem kwInv_fold (text : String) (sentences : List String) (minVal : Nat)
    (kws : List KeywordInfo) :
    KwInv sentences (kws.foldl (kwStep text sentences minVal) ⟨[], [], none⟩) :=
  List.foldlRecOn kws (kwStep text sentences minVal) ⟨[], [], none⟩
    ⟨List.nodup_nil, fun c hc => absurd hc (List.not_mem_nil c)⟩
    (fun st hst kwInfo _ => kwInv_step text sentences minVal hst kwInfo)

/-- Characterisation of the indicator results produced by
`_keyword_matching`: each comes from a catalog indicator, never carries a
`"text"` key, and its context list has at most five entries, no duplicates,
and every entry is a sentence containing one of the found keywords with
*every* occurrence of that keyword highlight-wrapped (`highlightKw` is
Python's all-occurrence `str.replace`). -/
theorem keyword_matching_mem {text : String} {sentences : List String}
    {indicators : List IndicatorDef} {minS : Strength} {r : IndicatorResult}
    (hr : r ∈ keyword_matching text sentences indicators minS) :
    ∃ ind ∈ indicators,
      r.indicator_id = ind.id ∧ r.text = none ∧
      r.context.length ≤ 5 ∧ r.context.Nodup ∧
      ∀ c ∈ r.context, ∃ kw ∈ r.found_keywords, ∃ s ∈ sentences,
        pyContains kw.text s = true ∧ c = highlightKw kw.text s := by
  have main : ∀ (inds : List IndicatorDef) (hsub : ∀ i ∈ inds, i ∈ indicators)
      (acc : List IndicatorResult)
      (hacc : ∀ r' ∈ acc, ∃ ind ∈ indicators,
        r'.indicator_id = ind.id ∧ r'.text = none ∧
        r'.context.length ≤ 5 ∧ r'.context.Nodup ∧
        ∀ c ∈ r'.context, ∃ kw ∈ r'.found_keywords, ∃ s ∈ sentences,
          pyContains kw.text s = true ∧ c = highlightKw kw.text s),
      ∀ r' ∈ inds.foldl
        (fun results ind =>
          let st := ind.keywords.foldl
            (kwStep text sentences (strengthVal minS)) ⟨[], [], none⟩
          if st.found_keywords ≠ [] then
            results ++
              [{ indicator_id := ind.id
                 indicator_name := ind.name
                 indicator_description := ind.description
                 found_keywords := st.found_keywords
                 overall_strength := st.highest.getD .low
                 context := st.found_context.take 5 }]
          else results) acc,
        ∃ ind ∈ indicators,
          r'.indicator_id = ind.id ∧ r'.text = none ∧
          r'.context.length ≤ 5 ∧ r'.context.Nodup ∧
          ∀ c ∈ r'.context, ∃ kw ∈ r'.found_keywords, ∃ s ∈ sentences,
            pyContains kw.text s = true ∧ c = highlightKw kw.text s := by
    intro inds
    induction inds with
    | nil => intro _ acc hacc r' hr'; exact hacc r' hr'
    | cons ind rest ih =>
      intro hsub acc hacc r' hr'
      refine ih (fun i hi => hsub i (List.mem_cons_of_mem ind hi)) _ ?_ r' hr'
      intro r'' hr''
      have hst := kwInv_fold text sentences (strengthVal minS) ind.keywords
      revert hr''
      dsimp only
      split
      · intro hr''
        rcases List.mem_append.mp hr'' with h | h
        · exact hacc r'' h
        · rw [List.mem_singleton] at h
          subst h
          refine ⟨ind, hsub ind (List.mem_cons_self ind rest), rfl, rfl, ?_, ?_, ?_⟩
          · exact le_trans (List.length_take_le 5 _) (le_refl 5)
          · exact (List.take_sublist 5 _).nodup hst.1
          · intro c hc
            exact hst.2 c ((List.take_sublist 5 _).mem hc)
      · intro hr''
        exact hacc r'' hr''
  exact main indicators (fun i hi => hi) [] 
    (fun r' hr' => absurd hr' (List.not_mem_nil r')) r hr

/-- Replacement of only the *first* occurrence (what the claim asserts the
highlighter does; Python `str.replace(old, rep, 1)`), for comparison with
the all-occurrence `replaceAll` the code actually performs. -/
def replaceFirst (s old rep : String) : String :=
  ⟨go old.toList rep.toList s.toList⟩
where
  go (old rep : List Char) : List Char → List Char
    | [] => []
    | c :: cs =>
      if old ≠ [] && old.isPrefixOf (c :: cs) then
        rep ++ (c :: cs).drop old.length
      else
        c :: go old rep cs

/-- **C4** — counterexample to "only the first occurrence of the keyword in
the sentence is replaced": on the sentence `"guerra guerra"` the produced
context entry is `"**guerra** **guerra**"` (every occurrence wrapped,
Python `str.replace` semantics), not the first-occurrence rendering
`"**guerra** guerra"` the claim describes. -/
theorem C4_keyword_context_counterexample :
    ∃ r ∈ keyword_matching "guerra guerra" ["guerra guerra"] [guerraDef] .low,
      r.context = ["**guerra** **guerra**"] ∧
      replaceFirst "guerra guerra" "guerra" "**guerra**" = "**guerra** guerra" ∧
      ("**guerra** **guerra**" : String) ≠ "**guerra** guerra" := by
  decide

/-- **C4** (amended) — keyword-match context rendering: every indicator
result produced by keyword matching has at most 5 context entries, each a
sentence containing one of its matched keywords rendered with *every*
occurrence of that keyword wrapped in the `**…**` highlight marker (Python
`str.replace` replaces all occurrences, not only the first), and duplicate
identical highlighted sentences are suppressed (the context list has no
duplicates). -/
theorem C4_keyword_context_rendering (text : String) (sentences : List String)
    (indicators : List IndicatorDef) (minS : Strength) :
    ∀ r ∈ keyword_matching text sentences indicators minS,
      r.context.length ≤ 5 ∧ r.context.Nodup ∧
      ∀ c ∈ r.context, ∃ kw ∈ r.found_keywords, ∃ s ∈ sentences,
        pyContains kw.text s = true ∧ c = highlightKw kw.text s := by
  intro r hr
  obtain ⟨-, -, -, -, h4, h5, h6⟩ := keyword_matching_mem hr
  exact ⟨h4, h5, h6⟩

/-- An inert indicator-result record, used only as a `headD` default in
closed witness statements. -/
def blankIndicator : IndicatorResult :=
  { indicator_id := ""
    indicator_name := ""
    indicator_description := ""
    found_keywords := []
    overall_strength := .low }

/-- Witness for C4 at the sole result of the `"guerra guerra guerra"`
fixture. -/
theorem C4_keyword_context_rendering_witness :
    (guerraKwRes.headD blankIndicator).context.length ≤ 5 ∧
    (guerraKwRes.headD blankIndicator).context.Nodup ∧
    ∀ c ∈ (guerraKwRes.headD blankIndicator).context,
      ∃ kw ∈ (guerraKwRes.headD blankIndicator).found_keywords,
      ∃ s ∈ ["guerra guerra guerra"],
        pyContains kw.text s = true ∧ c = highlightKw kw.text s :=
  C4_keyword_context_rendering "guerra guerra guerra"
    ["guerra guerra guerra"] [guerraDef] .low
    (guerraKwRes.headD blankIndicator) (by decide)

unseal Rat.mul Rat.inv Rat.add Rat.ofScientific in
/-- Witness for C2 at the sole result of combining the
`"guerra guerra guerra"` keyword output with only `keywordMatching`
executed. -/
theorem C2_weighted_combiner_witness :
    ∃ ca,
      ((weighted_analysis_combination guerraKwRes { keywordMatching := true }).headD
          blankIndicator).combined_analysis = some ca ∧
      ca.score =
        (ca.evidence_factors.map (·.contribution)).sum /
          ((if ({ keywordMatching := true } : Methods).keywordMatching = true then (1.0 : ℚ) else 0) +
           (if ({ keywordMatching := true } : Methods).frequencyAnalysis = true then (0.8 : ℚ) else 0) +
           (if ({ keywordMatching := true } : Methods).proximityAnalysis = true then (0.7 : ℚ) else 0) +
           (if ({ keywordMatching := true } : Methods).contextAnalysis = true then (0.6 : ℚ) else 0) +
           (if ({ keywordMatching := true } : Methods).patternMatching = true then (0.9 : ℚ) else 0) +
           (if ({ keywordMatching := true } : Methods).sentimentAnalysis = true then (0.4 : ℚ) else 0) +
           (if ({ keywordMatching := true } : Methods).nounPhraseAnalysis = true then (0.7 : ℚ) else 0) +
           (if ({ keywordMatching := true } : Methods).propagandaTechniqueAnalysis = true then (0.9 : ℚ) else 0) +
           (if ({ keywordMatching := true } : Methods).topicCoherenceAnalysis = true then (0.8 : ℚ) else 0) +
           (if ({ keywordMatching := true } : Methods).rhetoricalDeviceAnalysis = true then (0.8 : ℚ) else 0)) ∧
      ca.strength = (if (2.5 : ℚ) ≤ ca.score then Strength.high
        else if (1.5 : ℚ) ≤ ca.score then Strength.medium
        else Strength.low) ∧
      ((weighted_analysis_combination guerraKwRes { keywordMatching := true }).headD
          blankIndicator).overall_strength = ca.strength :=
  C2_weighted_combiner guerraKwRes { keywordMatching := true } rfl
    ((weighted_analysis_combination guerraKwRes { keywordMatching := true }).headD
      blankIndicator) (by decide)

/-! ### `"text"`-key preservation (for C10) -/

/-- No result in the list carries the `"text"` key. -/
def TextNone (l : List IndicatorResult) : Prop := ∀ r ∈ l, r.text = none

theorem textNone_map {g : IndicatorResult → IndicatorResult}
    (hg : ∀ r, (g r).text = r.text) {l : List IndicatorResult}
    (h : TextNone l) : TextNone (l.map g) := by
  intro r hr
  obtain ⟨r0, hr0, rfl⟩ := List.mem_map.mp hr
  rw [hg r0]
  exact h r0 hr0

theorem textNone_cond (c : Prop) [Decidable c]
    (f : List IndicatorResult → List IndicatorResult)
    (hf : ∀ m, TextNone m → TextNone (f m))
    {l : List IndicatorResult} (h : TextNone l) :
    TextNone (if c then f l else l) := by
  split
  · exact hf l h
  · exact h

theorem textNone_keyword (text : String) (sentences : List String)
    (indicators : List IndicatorDef) (minS : Strength) :
    TextNone (keyword_matching text sentences indicators minS) := by
  intro r hr
  obtain ⟨ind, hind, hid, ht, h4, h5, h6⟩ := keyword_matching_mem hr
  exact ht

theorem textNone_frequency (text : String) (words : List String)
    (minOcc : Nat) {l : List IndicatorResult} (h : TextNone l) :
    TextNone (frequency_analysis text words l minOcc) := by
  simp only [frequency_analysis]
  split
  · exact h
  · split
    · intro r hr
      obtain ⟨r0, hr0, hs⟩ := List.mem_filterMap.mp hr
      rw [(freqEnhance_some_spec hs).2.2.1]
      exact h r0 hr0
    · exact h

theorem textNone_proximity (words : List String) (maxD : Nat)
    {l : List IndicatorResult} (h : TextNone l) :
    TextNone (proximity_analysis words l maxD) := by
  simp only [proximity_analysis]
  split
  · exact h
  · exact textNone_map (fun r => (proximityEnhance_spec _ _ r).2.2) h

theorem textNone_context (sentences : List String)
    {l : List IndicatorResult} (h : TextNone l) :
    TextNone (context_analysis sentences l) := by
  simp only [context_analysis]
  split
  · exact h
  · exact textNone_map (fun r => (contextEnhance_spec r).2.2) h

theorem textNone_pattern (o : NLPOracles) (catalogIndicators : List IndicatorDef)
    (text : String) {l : List IndicatorResult} (h : TextNone l) :
    TextNone (pattern_matching o catalogIndicators text l) := by
  have hinit : ∀ p ∈ buildDict l, p.2.text = none := by
    intro p hp
    rcases buildDict_mem_aux hp with habs | ⟨r, hr, rfl⟩
    · exact absurd habs (List.not_mem_nil p)
    · exact h r hr
  have hstep : ∀ d, (∀ p ∈ d, p.2.text = none) → ∀ catEntry,
      catEntry ∈ patternTable →
      ∀ p ∈ patStep o catalogIndicators text d catEntry, p.2.text = none := by
    intro d hd catEntry _ p hp
    simp only [patStep] at hp
    split at hp
    · revert hp
      cases hdf : dictFind d catEntry.1 with
      | some indicator =>
        intro hp
        rcases mem_dictInsert hp with rfl | ⟨hp', -⟩
        · exact hd (catEntry.1, indicator) (dictFind_eq_some_mem hdf)
        · exact hd _ hp'
      | none =>
        cases catalogIndicators.find? (fun ind => ind.id == catEntry.1) with
        | some indicator_def =>
          intro hp
          rcases mem_dictInsert hp with rfl | ⟨hp', -⟩
          · rfl
          · exact hd _ hp'
        | none => intro hp; exact hd _ hp
    · exact hd _ hp
  have hinv := List.foldlRecOn patternTable (patStep o catalogIndicators text)
    (buildDict l) hinit hstep
  intro r hr
  simp only [pattern_matching] at hr
  obtain ⟨p, hp, rfl⟩ := List.mem_map.mp hr
  exact hinv p hp

theorem textNone_sentiment (text : String) {l : List IndicatorResult}
    (h : TextNone l) : TextNone (sentiment_analysis text l) :=
  textNone_map (fun r => (sentimentEnhance_spec text r).2.2) h

theorem textNone_nounPhrase (o : NLPOracles) (text : String)
    {l : List IndicatorResult} (h : TextNone l) :
    TextNone (noun_phrase_analysis o text l) :=
  textNone_map (fun r => (nounPhraseEnhance_spec o text r).2.2) h

theorem textNone_propaganda (o : NLPOracles) (text : String)
    {l : List IndicatorResult} (h : TextNone l) :
    TextNone (propaganda_technique_analysis o text l) :=
  textNone_map (fun r => (propagandaEnhance_spec o text r).2.2) h

theorem textNone_topic (o : NLPOracles) (text : String)
    (sentences : List String) {l : List IndicatorResult} (h : TextNone l) :
    TextNone (topic_coherence_analysis o text sentences l) := by
  simp only [topic_coherence_analysis]
  split
  · exact h
  · exact textNone_map (fun r => (topicEnhance_spec o text sentences r).2.2) h

theorem textNone_rhetorical (o : NLPOracles) (text : String)
    (sentences : List String) {l : List IndicatorResult} (h : TextNone l) :
    TextNone (rhetorical_device_analysis o text sentences l) := by
  simp only [rhetorical_device_analysis]
  split
  · exact h
  · exact textNone_map (fun r => (rhetoricalEnhance_spec o text sentences r).2.2) h

theorem textNone_combination (used : Methods) {l : List IndicatorResult}
    (h : TextNone l) : TextNone (weighted_analysis_combination l used) := by
  simp only [weighted_analysis_combination]
  split
  · exact h
  · exact textNone_map (fun r => (combineEnhance_spec used r).2) h

theorem textNone_runStages (o : NLPOracles) (catalog : List IndicatorDef)
    (methods : Methods) (thresholds : Thresholds) (pt : String)
    (ss ws : List String) {l : List IndicatorResult} (h : TextNone l) :
    TextNone (runStages o catalog methods thresholds pt ss ws l) := by
  unfold runStages
  dsimp only
  exact textNone_cond _ _ (fun m hm => textNone_rhetorical o pt ss hm)
    (textNone_cond _ _ (fun m hm => textNone_topic o pt ss hm)
      (textNone_cond _ _ (fun m hm => textNone_propaganda o pt hm)
        (textNone_cond _ _ (fun m hm => textNone_nounPhrase o pt hm)
          (textNone_cond _ _ (fun m hm => textNone_sentiment pt hm)
            (textNone_cond _ _ (fun m hm => textNone_pattern o catalog pt hm)
              (textNone_cond _ _ (fun m hm => textNone_context ss hm)
                (textNone_cond _ _ (fun m hm =>
                    textNone_proximity ws thresholds.proximityDistance hm)
                  (textNone_cond _ _ (fun m hm =>
                      textNone_frequency pt ws thresholds.minOccurrences hm)
                    h))))))))

theorem textNone_pure (o : NLPOracles) (catalog : List IndicatorDef)
    (text : String) (s : AnalysisSettings) :
    TextNone (analyze_text_pure o catalog text s).results := by
  unfold analyze_text_pure
  dsimp only
  split
  · intro r hr
    exact absurd hr (List.not_mem_nil r)
  · exact textNone_combination _
      (textNone_runStages _ _ _ _ _ _ _ (textNone_keyword _ _ _ _))

/-- **C10** — degenerate sentiment sub-score in the combiner: no stage of the
pipeline ever attaches a `"text"` key to an indicator result (part 1), so
the combiner's `indicator.get("text", "")` word count is zero and its
divisor falls back to 100; consequently (part 2) the sentiment sub-score of
a result carrying `sentiment_data` with `sentimentAnalysis` enabled is
3 exactly when `threat_score ≥ 6`, 2 when `3 ≤ threat_score ≤ 5`, and 1
otherwise, independent of the actual text length. -/
theorem C10_sentiment_subscore_degenerate :
    (∀ (o : NLPOracles) (catalog : List IndicatorDef) (text : String)
        (settings : AnalysisSettings),
      ∀ r ∈ (analyze_text_pure o catalog text settings).results,
        r.text = none) ∧
    (∀ (r : IndicatorResult) (used : Methods) (sd : SentimentData),
      r.text = none → r.sentiment_data = some sd →
      used.sentimentAnalysis = true →
      sentimentFactor r used = some
        { method := "sentimentAnalysis"
          contribution :=
            (if 6 ≤ sd.threat_score then (3 : ℚ)
             else if 3 ≤ sd.threat_score then 2 else 1) * (0.4 : ℚ) }) := by
  constructor
  · intro o catalog text settings r hr
    exact textNone_pure o catalog text settings r hr
  · intro r used sd ht hsd husd
    simp only [sentimentFactor, hsd, husd, if_true, ht]
    have h100 : (if (pySplit ((none : Option String).getD "")).length = 0 then 100
        else (pySplit ((none : Option String).getD "")).length) = 100 := rfl
    rw [h100]
    have hscore :
        (if 5 < sd.threat_score ∧
            (0.02 : ℚ) < (sd.threat_score : ℚ) / ((100 : Nat) : ℚ) then (3 : ℚ)
         else if 2 < sd.threat_score then 2 else 1) =
        (if 6 ≤ sd.threat_score then (3 : ℚ)
         else if 3 ≤ sd.threat_score then 2 else 1) := by
      have hiff : (5 < sd.threat_score ∧
          (0.02 : ℚ) < (sd.threat_score : ℚ) / ((100 : Nat) : ℚ)) ↔
          6 ≤ sd.threat_score := by
        constructor
        · intro hh
          have h5 := hh.1
          omega
        · intro hh
          refine ⟨by omega, ?_⟩
          rw [lt_div_iff₀ (by norm_num : (0 : ℚ) < ((100 : Nat) : ℚ))]
          have h6 : (6 : ℚ) ≤ (sd.threat_score : ℚ) := by exact_mod_cast hh
          have h2 : (0.02 : ℚ) * ((100 : Nat) : ℚ) = 2 := by norm_num
          rw [h2]
          linarith
      have hiff2 : (2 < sd.threat_score) ↔ (3 ≤ sd.threat_score) := by omega
      rw [if_congr hiff rfl (if_congr hiff2 rfl rfl)]
    rw [hscore]
    rfl

/-- Concrete sentiment data with `threat_score = 7`, for the C10 witness. -/
def sentSD : SentimentData :=
  { positive_score := 0
    negative_score := 0
    threat_score := 7
    total_sentiment := 0
    normalized_sentiment := 0 }

/-- A result carrying `sentSD` and no `"text"` key, for the C10 witness. -/
def sentIndicator : IndicatorResult :=
  { blankIndicator with sentiment_data := some sentSD }

/-- Witness for C10: the sentiment factor of `sentIndicator`. -/
theorem C10_sentiment_subscore_degenerate_witness :
    sentimentFactor sentIndicator { sentimentAnalysis := true } = some
      { method := "sentimentAnalysis"
        contribution :=
          (if 6 ≤ sentSD.threat_score then (3 : ℚ)
           else if 3 ≤ sentSD.threat_score then 2 else 1) * (0.4 : ℚ) } :=
  C10_sentiment_subscore_degenerate.2 sentIndicator { sentimentAnalysis := true }
    sentSD rfl rfl rfl

/-! ### Category-membership preservation (for C5) -/

/-- Every result's id belongs to `cats`. -/
def IdsIn (cats : List String) (l : List IndicatorResult) : Prop :=
  ∀ r ∈ l, r.indicator_id ∈ cats

theorem idsIn_map {g : IndicatorResult → IndicatorResult}
    (hg : ∀ r, (g r).indicator_id = r.indicator_id) {cats : List String}
    {l : List IndicatorResult} (h : IdsIn cats l) : IdsIn cats (l.map g) := by
  intro r hr
  obtain ⟨r0, hr0, rfl⟩ := List.mem_map.mp hr
  rw [hg r0]
  exact h r0 hr0

theorem idsIn_cond (c : Prop) [Decidable c]
    (f : List IndicatorResult → List IndicatorResult) {cats : List String}
    (hf : ∀ m, IdsIn cats m → IdsIn cats (f m))
    {l : List IndicatorResult} (h : IdsIn cats l) :
    IdsIn cats (if c then f l else l) := by
  split
  · exact hf l h
  · exact h

theorem idsIn_keyword (text : String) (sentences : List String)
    (catalog : List IndicatorDef) (cats : List String) (minS : Strength)
    (hcat : cats ≠ []) :
    IdsIn cats
      (keyword_matching text sentences (filteredCatalog catalog cats) minS) := by
  intro r hr
  obtain ⟨ind, hind, hid, -, -, -, -⟩ := keyword_matching_mem hr
  rw [hid]
  unfold filteredCatalog at hind
  rw [if_pos hcat] at hind
  have hmem := List.mem_filter.mp hind
  simpa using hmem.2

theorem idsIn_frequency (text : String) (words : List String) (minOcc : Nat)
    {cats : List String} {l : List IndicatorResult} (h : IdsIn cats l) :
    IdsIn cats (frequency_analysis text words l minOcc) := by
  simp only [frequency_analysis]
  split
  · exact h
  · split
    · intro r hr
      obtain ⟨r0, hr0, hs⟩ := List.mem_filterMap.mp hr
      rw [(freqEnhance_some_spec hs).1]
      exact h r0 hr0
    · exact h

theorem idsIn_proximity (words : List String) (maxD : Nat)
    {cats : List String} {l : List IndicatorResult} (h : IdsIn cats l) :
    IdsIn cats (proximity_analysis words l maxD) := by
  simp only [proximity_analysis]
  split
  · exact h
  · exact idsIn_map (fun r => (proximityEnhance_spec _ _ r).1) h

theorem idsIn_context (sentences : List String) {cats : List String}
    {l : List IndicatorResult} (h : IdsIn cats l) :
    IdsIn cats (context_analysis sentences l) := by
  simp only [context_analysis]
  split
  · exact h
  · exact idsIn_map (fun r => (contextEnhance_spec r).1) h

theorem idsIn_sentiment (text : String) {cats : List String}
    {l : List IndicatorResult} (h : IdsIn cats l) :
    IdsIn cats (sentiment_analysis text l) :=
  idsIn_map (fun r => (sentimentEnhance_spec text r).1) h

theorem idsIn_nounPhrase (o : NLPOracles) (text : String) {cats : List String}
    {l : List IndicatorResult} (h : IdsIn cats l) :
    IdsIn cats (noun_phrase_analysis o text l) :=
  idsIn_map (fun r => (nounPhraseEnhance_spec o text r).1) h

theorem idsIn_propaganda (o : NLPOracles) (text : String) {cats : List String}
    {l : List IndicatorResult} (h : IdsIn cats l) :
    IdsIn cats (propaganda_technique_analysis o text l) :=
  idsIn_map (fun r => (propagandaEnhance_spec o text r).1) h

theorem idsIn_topic (o : NLPOracles) (text : String) (sentences : List String)
    {cats : List String} {l : List IndicatorResult} (h : IdsIn cats l) :
    IdsIn cats (topic_coherence_analysis o text sentences l) := by
  simp only [topic_coherence_analysis]
  split
  · exact h
  · exact idsIn_map (fun r => (topicEnhance_spec o text sentences r).1) h

theorem idsIn_rhetorical (o : NLPOracles) (text : String)
    (sentences : List String) {cats : List String} {l : List IndicatorResult}
    (h : IdsIn cats l) :
    IdsIn cats (rhetorical_device_analysis o text sentences l) := by
  simp only [rhetorical_device_analysis]
  split
  · exact h
  · exact idsIn_map (fun r => (rhetoricalEnhance_spec o text sentences r).1) h

theorem idsIn_combination (used : Methods) {cats : List String}
    {l : List IndicatorResult} (h : IdsIn cats l) :
    IdsIn cats (weighted_analysis_combination l used) := by
  simp only [weighted_analysis_combination]
  split
  · exact h
  · exact idsIn_map (fun r => (combineEnhance_spec used r).1) h

theorem idsIn_runStages (o : NLPOracles) (catalog : List IndicatorDef)
    (methods : Methods) (thresholds : Thresholds) (pt : String)
    (ss ws : List String) {cats : List String} {l : List IndicatorResult}
    (hpat : methods.patternMatching = false) (h : IdsIn cats l) :
    IdsIn cats (runStages o catalog methods thresholds pt ss ws l) := by
  unfold runStages
  dsimp only
  rw [hpat]
  simp only [Bool.false_eq_true, if_false]
  exact idsIn_cond _ _ (fun m hm => idsIn_rhetorical o pt ss hm)
    (idsIn_cond _ _ (fun m hm => idsIn_topic o pt ss hm)
      (idsIn_cond _ _ (fun m hm => idsIn_propaganda o pt hm)
        (idsIn_cond _ _ (fun m hm => idsIn_nounPhrase o pt hm)
          (idsIn_cond _ _ (fun m hm => idsIn_sentiment pt hm)
            (idsIn_cond _ _ (fun m hm => idsIn_context ss hm)
              (idsIn_cond _ _ (fun m hm =>
                  idsIn_proximity ws thresholds.proximityDistance hm)
                (idsIn_cond _ _ (fun m hm =>
                    idsIn_frequency pt ws thresholds.minOccurrences hm)
                  h)))))))

unseal Rat.mul Rat.inv Rat.add Rat.ofScientific in
/-- **C5** — counterexample to "every result id belongs to `categories`, for
every combination of enabled stages (including patternMatching)": with
`categories = ["extreme_nationalism"]` and pattern matching enabled, the
text `"immigrati invasione"` (no keyword match, but `hateSpeechP1` fires)
makes `_pattern_matching` synthesise a `hate_speech` result from the *full*
catalog, bypassing the category filter. -/
theorem C5_category_filter_counterexample :
    c5Settings.categories = ["extreme_nationalism"] ∧
    c5Settings.methods.patternMatching = true ∧
    ∃ r ∈ (analyze_text c5Oracles [natDef, hateDef] "immigrati invasione"
        (some c5Settings) []).1.results,
      r.indicator_id ∉ c5Settings.categories := by
  decide

/-- **C5** (amended) — category filter: for every call to `analyze_text`
with a non-empty `settings.categories` list, *with `patternMatching`
disabled* (and no cached entry for the text), every indicator result in the
returned report has an `indicator_id` belonging to that list; with
`patternMatching` enabled the filter can be bypassed, since pattern
synthesis consults the full catalog. -/
theorem C5_category_filter (o : NLPOracles) (catalog : List IndicatorDef)
    (text : String) (settings : AnalysisSettings) (cache : Cache)
    (hcat : settings.categories ≠ [])
    (hpat : settings.methods.patternMatching = false)
    (hmiss : cacheGet cache text = none) :
    ∀ r ∈ (analyze_text o catalog text (some settings) cache).1.results,
      r.indicator_id ∈ settings.categories := by
  by_cases htext : text = ""
  · subst htext
    intro r hr
    rw [show analyze_text o catalog "" (some settings) cache =
      ({ error := some "Empty text provided", results := [] }, cache) from rfl] at hr
    exact absurd hr (List.not_mem_nil r)
  · unfold analyze_text
    rw [if_neg htext, hmiss]
    intro r hr
    revert r
    show IdsIn settings.categories _
    unfold analyze_text_pure
    dsimp only [Option.getD_some]
    split
    · intro r hr
      exact absurd hr (List.not_mem_nil r)
    · exact idsIn_combination _
        (idsIn_runStages _ _ _ _ _ _ _ hpat
          (idsIn_keyword _ _ _ _ _ hcat))

unseal Rat.mul Rat.inv Rat.add Rat.ofScientific in
/-- Witness for C5 (amended): the nationalism indicator is the only result
when analysis is restricted to it with pattern matching off. -/
theorem C5_category_filter_witness :
    ((analyze_text trivOracles [natDef, hateDef] "popolo superiore"
        (some { methods := { keywordMatching := true }
                categories := ["extreme_nationalism"] }) []).1.results.headD
      blankIndicator).indicator_id ∈ (["extreme_nationalism"] : List String) :=
  C5_category_filter trivOracles [natDef, hateDef] "popolo superiore"
    { methods := { keywordMatching := true }
      categories := ["extreme_nationalism"] } []
    (by decide) rfl rfl _ (by decide)
